import Mathlib

/-!
Verification of the ratatui-mana repository's entity-store and layout core.

This file shallowly embeds, in Lean, the generation-checked entity store
(`src/ratatui-elemental/src/typemap.rs`, `TypeArena`) and the three-pass
layout algorithm plus render walk of `src/ratatui-elemental/src/layout.rs`,
together with the fit/grow/position passes of
`src/mana-tui-elemental/src/layout.rs` where a claim depends on that
revision.  Machine integers (`u16`, `usize`) are modelled as `Nat`:
`saturating_sub` is exactly `Nat` subtraction; a plain Rust `-` that can
underflow, a division whose divisor can be zero, and a failing `assert!`
are modelled as `Except`/`Option` failures, matching the panic Rust
performs in those situations.  Loops whose termination is not structural
(the growth loop, recursion through store indices) take an explicit fuel
argument; running out of fuel is the distinguished error `LayoutErr.fuel`,
so that a proved `.error .underflow` or `.error .divByZero` result can
never be an artifact of the fuel.
-/

namespace RatatuiMana

/-! ### Basic geometry types shared by both layout revisions.

`U16Vec2` models `glam::U16Vec2`; `Padding`, `Direction`, `Size`,
`Justify` model the equally named types of `ratatui` and of
`layout.rs`.  Additions cannot overflow in the model (`Nat`); every
`saturating_sub` of the source is `Nat` subtraction, which is already
saturating. -/
structure U16Vec2 where
  x : Nat
  y : Nat
deriving DecidableEq

def u16vec2 (x y : Nat) : U16Vec2 := ⟨x, y⟩

def U16Vec2.saturating_sub (a b : U16Vec2) : U16Vec2 :=
  ⟨a.x - b.x, a.y - b.y⟩

/-- `glam` componentwise clamp, used as `.clamp(U16Vec2::ZERO, max_size)`. -/
def U16Vec2.clampVec (v lo hi : U16Vec2) : U16Vec2 :=
  ⟨Nat.max lo.x (Nat.min v.x hi.x), Nat.max lo.y (Nat.min v.y hi.y)⟩

def U16Vec2.add (a b : U16Vec2) : U16Vec2 := ⟨a.x + b.x, a.y + b.y⟩

instance : Add U16Vec2 := ⟨U16Vec2.add⟩

def U16Vec2.ZERO : U16Vec2 := ⟨0, 0⟩

/-- `u16::clamp(0, hi)` on a `Nat` (the lower bound 0 is a no-op). -/
def clamp0 (v hi : Nat) : Nat := Nat.min v hi

structure Padding where
  left : Nat
  right : Nat
  top : Nat
  bottom : Nat
deriving DecidableEq

inductive Direction where
  | Horizontal
  | Vertical
deriving DecidableEq

inductive Size where
  | Fixed (n : Nat)
  | Fit
  | Grow
deriving DecidableEq

inductive Justify where
  | Start
  | Center
  | SpaceBetween
  | SpaceAround
  | SpaceEvenly
  | End
deriving DecidableEq

def Size.should_clamp : Size → Bool
  | .Fixed _ => true
  | .Fit => false
  | .Grow => false

def Size.is_grow : Size → Bool
  | .Grow => true
  | _ => false

/-- `AxisSizes` of `layout.rs` (same definition in both revisions). -/
structure AxisSizes where
  main_axis : Nat
  cross_axis : Nat
deriving DecidableEq

def AxisSizes.from_u16vec2 (value : U16Vec2) (dir : Direction) : AxisSizes :=
  match dir with
  | .Horizontal => ⟨value.x, value.y⟩
  | .Vertical => ⟨value.y, value.x⟩

def axify (vec : U16Vec2) (dir : Direction) : AxisSizes :=
  AxisSizes.from_u16vec2 vec dir

def AxisSizes.min (a b : AxisSizes) : AxisSizes :=
  ⟨Nat.min a.main_axis b.main_axis, Nat.min a.cross_axis b.cross_axis⟩

def AxisSizes.pad (s : AxisSizes) (padding : Padding) (dir : Direction) : AxisSizes :=
  match dir with
  | .Horizontal => ⟨s.main_axis + padding.left + padding.right,
                    s.cross_axis + padding.top + padding.bottom⟩
  | .Vertical => ⟨s.main_axis + padding.top + padding.bottom,
                  s.cross_axis + padding.left + padding.right⟩

def AxisSizes.shrink (s : AxisSizes) (padding : Padding) (dir : Direction) : AxisSizes :=
  match dir with
  | .Horizontal => ⟨s.main_axis - (padding.left + padding.right),
                    s.cross_axis - (padding.top + padding.bottom)⟩
  | .Vertical => ⟨s.main_axis - (padding.top + padding.bottom),
                  s.cross_axis - (padding.left + padding.right)⟩

def AxisSizes.increase (s : AxisSizes) (by' : U16Vec2) (dir : Direction) : AxisSizes :=
  match dir with
  | .Horizontal => ⟨s.main_axis + by'.x, Nat.max s.cross_axis by'.y⟩
  | .Vertical => ⟨s.main_axis + by'.y, Nat.max s.cross_axis by'.x⟩

def AxisSizes.to_u16vec2 (s : AxisSizes) (dir : Direction) : U16Vec2 :=
  match dir with
  | .Horizontal => u16vec2 s.main_axis s.cross_axis
  | .Vertical => u16vec2 s.cross_axis s.main_axis

/-- The derived `Sub` on `AxisSizes` is fieldwise `u16` subtraction, which
panics on underflow; modelled as a checked subtraction. -/
def AxisSizes.csub (a b : AxisSizes) : Option AxisSizes :=
  if b.main_axis ≤ a.main_axis ∧ b.cross_axis ≤ a.cross_axis then
    some ⟨a.main_axis - b.main_axis, a.cross_axis - b.cross_axis⟩
  else none

def increase_axis (init : Nat) (dir : Direction) (size : U16Vec2) : Nat :=
  match dir with
  | .Horizontal => init + size.x
  | .Vertical => init + size.y

structure LayoutParams where
  width : Size
  height : Size
  direction : Direction
  padding : Padding
  gap : Nat
  main_justify : Justify
deriving DecidableEq

def LayoutParams.main_size (p : LayoutParams) (dir : Direction) : Size :=
  match dir with
  | .Horizontal => p.width
  | .Vertical => p.height

def LayoutParams.cross_size (p : LayoutParams) (dir : Direction) : Size :=
  match dir with
  | .Horizontal => p.height
  | .Vertical => p.width

/-! ### The generation-checked entity store.

Model of `TypeArena` in `src/ratatui-elemental/src/typemap.rs` for a single
payload type `V` (the store keeps one `TypeArena` per concrete widget type;
all claims concern operations within one arena).  The union
`TypeSlotUnion` is modelled as an inductive; `version` parity encodes
occupancy exactly as in the source (`occupied` iff the version is odd).
`slots.get_mut`/`slots.get` panic on an out-of-range index in the source;
the model returns `none` there, and every theorem only exercises keys the
arena itself issued, whose indices are always in range. -/
inductive TypeSlotUnion (V : Type) where
  | occupied (value : V)
  | vacant (next_free : Nat)
deriving DecidableEq

structure TypeSlot (V : Type) where
  u : TypeSlotUnion V
  version : Nat
deriving DecidableEq

def TypeSlot.occupied (s : TypeSlot V) : Bool := ¬ s.version % 2 = 0

def TypeSlot.vacant (s : TypeSlot V) : Bool := s.version % 2 = 0

structure TypeKey where
  index : Nat
  version : Nat
deriving DecidableEq

structure TypeArena (V : Type) where
  slots : List (TypeSlot V)
  count : Nat
  next_free : Nat
deriving DecidableEq

/-- `TypeArena::with_capacity` only reserves buffer space: the slot list
starts empty, `count = 0`, `next_free = 0`. -/
def TypeArena.empty (V : Type) : TypeArena V := ⟨[], 0, 0⟩

/-- The `None` branch of `TypeArena::insert` (`try_get_mut` missed): push a
fresh occupied slot with version 1; the key's index is `self.next_free`
(which the source also uses as `idx` in that branch) and afterwards
`next_free` is reset to the new slot count.  The source's occupied-slot
branch sets `self.next_free = self.slots.len()` and retries `insert`; that
retry always lands in this branch, so `insert` below calls this helper
there directly. -/
def TypeArena.insertAppend (a : TypeArena V) (value : V) : TypeKey × TypeArena V :=
  let idx := a.next_free
  let slots := a.slots ++ [⟨.occupied value, 1⟩]
  (⟨idx, 1⟩, ⟨slots, a.count + 1, slots.length⟩)

/-- `TypeArena::insert`.  The vacant-reuse branch takes the union's
`vacant.next_free`, bumps the version by 2 and occupies the slot, exactly
as the source does; a version-vacant slot whose union is (unreachably) in
the occupied arm keeps the union read's value access total by reusing the
stored payload's slot unchanged semantics via `next_free := 0`. -/
def TypeArena.insert (a : TypeArena V) (value : V) : TypeKey × TypeArena V :=
  match a.slots.get? a.next_free with
  | some slot =>
    if slot.occupied then
      TypeArena.insertAppend { a with next_free := a.slots.length } value
    else
      let idx := a.next_free
      let nf := match slot.u with
        | .vacant next_free => next_free
        | .occupied _ => 0
      let slot' : TypeSlot V := ⟨.occupied value, slot.version + 2⟩
      (⟨idx, slot.version + 2⟩,
        ⟨a.slots.set idx slot', a.count + 1, nf⟩)
  | none => TypeArena.insertAppend a value

/-- `TypeArena::remove`.  Note that the source stores the old free-list head
into the freed slot's `VacantSlot` but never updates `self.next_free`;
the model reproduces this faithfully. -/
def TypeArena.remove (a : TypeArena V) (key : TypeKey) : Option (V × TypeArena V) :=
  match a.slots.get? key.index with
  | none => none
  | some slot =>
    if slot.vacant then none
    else
      match slot.u with
      | .occupied value =>
        let slot' : TypeSlot V := ⟨.vacant a.next_free, slot.version + 1⟩
        some (value, ⟨a.slots.set key.index slot', a.count - 1, a.next_free⟩)
      | .vacant _ => none

/-- `TypeArena::get`: returns the payload iff the slot is version-occupied.
The source compares no generations here — only the slot's own parity. -/
def TypeArena.get (a : TypeArena V) (key : TypeKey) : Option V :=
  match a.slots.get? key.index with
  | none => none
  | some slot =>
    if slot.vacant then none
    else
      match slot.u with
      | .occupied value => some value
      | .vacant _ => none

/-- `TypeArena::get_widget`: looks the slot up by index, reads its
`key_version()` (the slot's stored version) and fails iff it is even. -/
def TypeArena.get_widget (a : TypeArena V) (key : TypeKey) : Option (TypeSlot V) :=
  match a.slots.get? key.index with
  | none => none
  | some slot =>
    if slot.version % 2 = 0 then none
    else some slot

/-- One public mutation of the arena: an insert of any value, or a
successful remove of any key. -/
inductive ArenaStep : TypeArena V → TypeArena V → Prop where
  | insert (a : TypeArena V) (v : V) : ArenaStep a (a.insert v).2
  | remove (a : TypeArena V) (k : TypeKey) (v : V) (a' : TypeArena V) :
      a.remove k = some (v, a') → ArenaStep a a'

/-- States reachable from the freshly constructed arena. -/
def ArenaReach (a : TypeArena V) : Prop :=
  Relation.ReflTransGen ArenaStep (TypeArena.empty V) a

/-- States reachable from a given state by further public mutations. -/
def ArenaReachFrom (a b : TypeArena V) : Prop :=
  Relation.ReflTransGen ArenaStep a b

/-- The reachable-state invariant: `next_free` always equals the slot
count (which is why a freed slot is in fact never reused), and every slot
is either version-1 occupied or version-2 vacant, union arm matching. -/
def ArenaInv (a : TypeArena V) : Prop :=
  a.next_free = a.slots.length ∧
  ∀ s ∈ a.slots,
    (s.version = 1 ∧ ∃ v, s.u = .occupied v) ∨
    (s.version = 2 ∧ ∃ nf, s.u = .vacant nf)

def c1ArenaA : TypeArena Nat := ((TypeArena.empty Nat).insert 5).2

def c1Key : TypeKey := ((TypeArena.empty Nat).insert 5).1

def c1ArenaFreed : TypeArena Nat := ⟨[⟨.vacant 1, 2⟩], 0, 1⟩

def c1ArenaAfter : TypeArena Nat := (c1ArenaFreed.insert 7).2

/-! ### The ratatui-elemental layout engine.

Model of `ElementCtx::{calculate_fit_sizes, calculate_grow_sizes,
calculate_positions, calculate_layout}` in
`src/ratatui-elemental/src/layout.rs`.  At layout time the elements
reachable from the root form a tree (children lists are snapshots, one
parent per child), so the store-plus-keys representation is embedded as a
rose tree whose nodes carry exactly the `TuiElement` fields the passes
read and write (`layout_params`, `position`, `size`, `children`).  Every
recursion that the source performs through store keys, and the `while`
loop of the growth pass, take a fuel argument; `LayoutErr.fuel` is only
ever produced by fuel exhaustion, never by the embedded source logic.
`LayoutErr.underflow` models the panic of the underflowing plain `u16`
subtractions (`bsize - asize`, `remaining_size - (bsize - asize)`),
`LayoutErr.assertFail` the `assert!`/`unreachable!` in the growth loop,
and `LayoutErr.divByZero` the panic of `remaining_size / div_by` when
`div_by` is zero. -/
inductive LayoutErr where
  | fuel
  | underflow
  | assertFail
  | divByZero
deriving DecidableEq

inductive TuiElement where
  | mk (layout_params : LayoutParams) (position : U16Vec2) (size : U16Vec2)
      (children : List TuiElement)

def TuiElement.layout_params : TuiElement → LayoutParams
  | .mk p _ _ _ => p

def TuiElement.position : TuiElement → U16Vec2
  | .mk _ pos _ _ => pos

def TuiElement.size : TuiElement → U16Vec2
  | .mk _ _ sz _ => sz

def TuiElement.children : TuiElement → List TuiElement
  | .mk _ _ _ ch => ch

def TuiElement.withSize : TuiElement → U16Vec2 → TuiElement
  | .mk p pos _ ch, s => .mk p pos s ch

def TuiElement.withPosition : TuiElement → U16Vec2 → TuiElement
  | .mk p _ sz ch, pos => .mk p pos sz ch

/-- Sequencing of two fallible passes (`Except.bind`, spelt out). -/
def chainE (r : Except LayoutErr TuiElement) (f : TuiElement → Except LayoutErr TuiElement) :
    Except LayoutErr TuiElement :=
  match r with
  | .error e => .error e
  | .ok t => f t

/-- Error-propagating map over a list, written as plain matches (the
`Result`-returning `try_for_each`/`?` loops of the source). -/
def mapME (f : α → Except LayoutErr β) : List α → Except LayoutErr (List β)
  | [] => .ok []
  | x :: xs =>
    match f x with
    | .error e => .error e
    | .ok y =>
      match mapME f xs with
      | .error e => .error e
      | .ok ys => .ok (y :: ys)

/-- Pass 1, `calculate_fit_sizes`.  Fixed axes are written first; then each
child is computed recursively and clamped — the source tests
`self[element].layout_params.width.should_clamp()` (the PARENT's width
policy) for both the x and the y clamp, and clamps both `size.x` and
`size.y` into `[0, max_size.x]` (the parent's inner width); then sizes are
accumulated (sum along the main axis, max along the cross axis), padded,
and the gap total `(len-1)*gap` is added on the main axis; finally a
`Fit`/`Grow` axis of this element receives the accumulated value. -/
def calculate_fit_sizes : Nat → TuiElement → Except LayoutErr TuiElement
  | 0, _ => .error .fuel
  | fuel+1, .mk p pos sz ch =>
    let size1 : U16Vec2 :=
      ⟨(match p.width with | .Fixed n => n | _ => sz.x),
       (match p.height with | .Fixed n => n | _ => sz.y)⟩
    let max_size := size1.saturating_sub
      (u16vec2 (p.padding.right + p.padding.left) (p.padding.bottom + p.padding.top))
    match mapME (fun c =>
      match calculate_fit_sizes fuel c with
      | .error e => .error e
      | .ok c' =>
        let cx := if p.width.should_clamp then clamp0 c'.size.x max_size.x else c'.size.x
        let cy := if p.width.should_clamp then clamp0 c'.size.y max_size.x else c'.size.y
        .ok (c'.withSize ⟨cx, cy⟩)) ch with
    | .error e => .error e
    | .ok ch' =>
      let space_used := ch'.foldl (fun (acc : AxisSizes) c => acc.increase c.size p.direction)
        (⟨0, 0⟩ : AxisSizes)
      let space_used := space_used.pad p.padding p.direction
      let space_used :=
        { space_used with main_axis := space_used.main_axis + (ch.length - 1) * p.gap }
      let su := space_used.to_u16vec2 p.direction
      .ok (.mk p pos
        ⟨(match p.width with | .Fit | .Grow => su.x | .Fixed _ => size1.x),
         (match p.height with | .Fit | .Grow => su.y | .Fixed _ => size1.y)⟩ ch')

/-- The per-child data the growth loop of pass 2 reads and writes: the
loop touches nothing of a child except its `layout_params` (read) and its
`size` (read and written). -/
structure ChildView where
  layout_params : LayoutParams
  size : U16Vec2
deriving DecidableEq

def toChildView (t : TuiElement) : ChildView := ⟨t.layout_params, t.size⟩

def getSizeD (l : List ChildView) (i : Nat) : U16Vec2 :=
  ((l.get? i).map ChildView.size).getD U16Vec2.ZERO

def setSizeAt (l : List ChildView) (i : Nat) (v : U16Vec2) : List ChildView :=
  l.set i ⟨((l.get? i).map ChildView.layout_params).getD ⟨.Fit, .Fit, .Horizontal, ⟨0,0,0,0⟩, 0, .Start⟩, v⟩

/-- Loop-scan state of the growth loop: the two currently-smallest
main-axis-`Grow` children (tracked by child index, as the source tracks
them by key), the previously seen grow child's size, the running
all-equal flag and the grow-child count. -/
structure ScanState where
  smallest0 : Option Nat
  smallest1 : Option Nat
  first : Option AxisSizes
  all_equal : Bool
  grow_count : Nat

/-- One pass of the scan `for child in children` inside the growth loop
(`layout.rs` lines 181-218), transcribed branch for branch; `l` is the
children list the source reads sizes from (unchanged during the scan). -/
def growScanGo (dir : Direction) (l : List ChildView) :
    List ChildView → Nat → ScanState → ScanState
  | [], _, st => st
  | c :: rest, i, st =>
    if (c.layout_params.main_size dir).is_grow then
      let size := axify c.size dir
      let all_equal := if st.first.isSome ∧ some size ≠ st.first then false else st.all_equal
      let grow_count := st.grow_count + 1
      let first := some size
      let sm :
          Option Nat × Option Nat :=
        match st.smallest0, st.smallest1 with
        | none, none => (some i, st.smallest1)
        | some a, none =>
          let asize := axify (getSizeD l a) dir
          if asize.main_axis < size.main_axis then (some a, some i)
          else if size.main_axis < asize.main_axis then (some i, some a)
          else (some a, none)
        | some a, some b =>
          let asize := axify (getSizeD l a) dir
          let bsize := axify (getSizeD l b) dir
          if asize.main_axis < size.main_axis then (some i, some a)
          else if size.main_axis < bsize.main_axis then (some a, some i)
          else (some a, some b)
        | none, some b => (none, some b)
      growScanGo dir l rest (i+1) ⟨sm.1, sm.2, first, all_equal, grow_count⟩
    else growScanGo dir l rest (i+1) st

def growScan (dir : Direction) (l : List ChildView) : ScanState :=
  growScanGo dir l l 0 ⟨none, none, none, true, 0⟩

/-- The even-distribution branch of the growth loop (`all_equal`): every
main-axis-`Grow` child's main size is REPLACED by
`remaining / grow_count`, and the first such child additionally receives
the whole remainder `remaining % grow_count`. -/
def growDistribute (dir : Direction) (q r : Nat) :
    List ChildView → Bool → List ChildView
  | [], _ => []
  | c :: rest, firstFlag =>
    if (c.layout_params.main_size dir).is_grow then
      let size := axify c.size dir
      let size := { size with main_axis := q }
      let size := if firstFlag then { size with main_axis := size.main_axis + r } else size
      { c with size := size.to_u16vec2 dir } :: growDistribute dir q r rest false
    else c :: growDistribute dir q r rest firstFlag

inductive GrowIterOut where
  | brk (l : List ChildView)
  | cont (l : List ChildView) (remaining : AxisSizes)

/-- One iteration of `while remaining_size.main_axis > 0` in
`calculate_grow_sizes` (`layout.rs` lines 176-256): scan, then either the
all-equal distribution (break), or the two-smallest catch-up step
`remaining = remaining.min(remaining - (bsize - asize)); a.main = remaining.main`
(continue), or the single-candidate step `a.main = remaining.main`
(break), or break when no grow child exists. -/
def growIter (dir : Direction) (l : List ChildView) (remaining : AxisSizes) :
    Except LayoutErr GrowIterOut :=
  let st := growScan dir l
  if st.all_equal = true ∧ st.grow_count > 0 then
    let r := remaining.main_axis % st.grow_count
    let q := remaining.main_axis / st.grow_count
    .ok (.brk (growDistribute dir q r l true))
  else
    match st.smallest0, st.smallest1 with
    | some a, some b =>
      let asize := axify (getSizeD l a) dir
      let bsize := axify (getSizeD l b) dir
      if asize.main_axis = bsize.main_axis then .error .assertFail
      else
        match bsize.csub asize with
        | none => .error .underflow
        | some d =>
          match remaining.csub d with
          | none => .error .underflow
          | some rd =>
            let remaining' := remaining.min rd
            let asize' := { asize with main_axis := remaining'.main_axis }
            .ok (.cont (setSizeAt l a (asize'.to_u16vec2 dir)) remaining')
    | some a, none =>
      let asize := axify (getSizeD l a) dir
      let asize' := { asize with main_axis := remaining.main_axis }
      .ok (.brk (setSizeAt l a (asize'.to_u16vec2 dir)))
    | none, none => .ok (.brk l)
    | none, some _ => .error .assertFail

def growLoop (dir : Direction) (fuel : Nat) (l : List ChildView)
    (remaining : AxisSizes) : Except LayoutErr (List ChildView) :=
  if remaining.main_axis = 0 then .ok l
  else
    match fuel with
    | 0 => .error .fuel
    | f+1 =>
      match growIter dir l remaining with
      | .error e => .error e
      | .ok (.brk l') => .ok l'
      | .ok (.cont l' r') => growLoop dir f l' r'

/-- Pass 2, `calculate_grow_sizes`: compute the inner size and the
clamped main-axis `remaining`; give every cross-axis-`Grow` child the
inner cross size; run the growth loop over the children's
params-and-size views; write the resulting sizes back; recurse. -/
def calculate_grow_sizes : Nat → TuiElement → Except LayoutErr TuiElement
  | 0, _ => .error .fuel
  | fuel+1, .mk p pos sz ch =>
    let max_size := sz.saturating_sub
      (u16vec2 (p.padding.right + p.padding.left) (p.padding.bottom + p.padding.top))
    let used_space := ch.foldl (fun acc c => acc + c.size) U16Vec2.ZERO
    let remaining0 := (sz.saturating_sub used_space).clampVec U16Vec2.ZERO max_size
    let remaining1 := axify remaining0 p.direction
    let remaining :=
      { remaining1 with main_axis := remaining1.main_axis - (ch.length - 1) * p.gap }
    let ch1 := ch.map (fun c =>
      if (c.layout_params.cross_size p.direction).is_grow then
        let s := AxisSizes.from_u16vec2 c.size p.direction
        let s := { s with cross_axis := (axify max_size p.direction).cross_axis }
        c.withSize (s.to_u16vec2 p.direction)
      else c)
    match growLoop p.direction (fuel+1) (ch1.map toChildView) remaining with
    | .error e => .error e
    | .ok views =>
      let ch2 := List.zipWith (fun c v => c.withSize v.size) ch1 views
      match mapME (fun c => calculate_grow_sizes fuel c) ch2 with
      | .error e => .error e
      | .ok ch3 => .ok (.mk p pos sz ch3)

structure AlignValues where
  start : Nat
  inbetween : Nat
  remainder : Nat
deriving DecidableEq

/-- The `main_justify` match of `calculate_positions` (`layout.rs` lines
299-343).  Guards `if children.is_empty()` are the source's; the
`div_by = 0` test inside `SpaceBetween` models the Rust panic of
`remaining / 0` that happens when the container has exactly one child
(`div_by = children.len() - 1 = 0`). -/
def alignFor (justify : Justify) (remaining : Nat) (nchildren : Nat) :
    Except LayoutErr AlignValues :=
  match justify with
  | .Start => .ok ⟨0, 0, 0⟩
  | .Center => .ok ⟨remaining / 2, 0, 0⟩
  | .SpaceBetween =>
    if nchildren = 0 then .ok ⟨0, 0, 0⟩
    else
      let div_by := nchildren - 1
      if div_by = 0 then .error .divByZero
      else .ok ⟨0, remaining / div_by, remaining % div_by⟩
  | .SpaceAround =>
    if nchildren = 0 then .ok ⟨0, 0, 0⟩
    else
      let div_by := nchildren * 2
      .ok ⟨remaining / div_by, remaining / div_by * 2, remaining % div_by⟩
  | .SpaceEvenly =>
    if nchildren = 0 then .ok ⟨0, 0, 0⟩
    else
      let div_by := nchildren * 2 + 2
      .ok ⟨remaining / div_by * 2, remaining / div_by * 2, 0⟩
  | .End => .ok ⟨remaining, 0, 0⟩

/-- The child loop of pass 3: each child's position is the parent
position, plus `align.start` on the main axis, plus the
`(padding.left, padding.top)` offset; then the cursor advances by the
child's size, the gap, the per-gap extra and one remainder unit while any
remain.  The source recurses into the child right here; the recursion
only writes inside the child's subtree and the loop state reads only the
child's top-level size, so the descent is performed afterwards (in
`calculate_positions`) without changing any computed value. -/
def positionChildren (dir : Direction) (padding : Padding) (gap : Nat)
    (parentPos : U16Vec2) : List TuiElement → AlignValues → List TuiElement
  | [], _ => []
  | c :: rest, align =>
    let cpos := parentPos
    let cpos := match dir with
      | .Horizontal => ⟨cpos.x + align.start, cpos.y⟩
      | .Vertical => ⟨cpos.x, cpos.y + align.start⟩
    let cpos := cpos + u16vec2 padding.left padding.top
    let c' := c.withPosition cpos
    let start1 := increase_axis align.start dir c'.size
    let tick : Nat × Nat := match align.remainder with
      | 0 => (0, 0)
      | r+1 => (1, r)
    let start2 := start1 + gap + align.inbetween + tick.1
    c' :: positionChildren dir padding gap parentPos rest ⟨start2, align.inbetween, tick.2⟩

/-- Pass 3, `calculate_positions`. -/
def calculate_positions : Nat → TuiElement → Except LayoutErr TuiElement
  | 0, _ => .error .fuel
  | fuel+1, .mk p pos sz ch =>
    let space_used := (ch.map (fun c => (axify c.size p.direction).main_axis)).foldl (· + ·) 0
    let space_used := space_used + p.gap * (ch.length - 1)
    let remaining := ((axify sz p.direction).shrink p.padding p.direction).main_axis - space_used
    match alignFor p.main_justify remaining ch.length with
    | .error e => .error e
    | .ok align =>
      let ch1 := positionChildren p.direction p.padding p.gap pos ch align
      match mapME (fun c => calculate_positions fuel c) ch1 with
      | .error e => .error e
      | .ok ch2 => .ok (.mk p pos sz ch2)

/-- `ElementCtx::calculate_layout`: the three passes in order. -/
def calculate_layout (fuel : Nat) (t : TuiElement) : Except LayoutErr TuiElement :=
  chainE (chainE (calculate_fit_sizes fuel t) (calculate_grow_sizes fuel))
    (calculate_positions fuel)

/-! ### Projections and concrete layout inputs used by the theorems. -/
/-- Decidable equality for `Except`, used to evaluate the layout pipeline
at concrete inputs inside proofs. -/
instance [DecidableEq e] [DecidableEq a] : DecidableEq (Except e a) := fun x y =>
  match x, y with
  | .ok u, .ok v =>
    if h : u = v then isTrue (congrArg Except.ok h)
    else isFalse (fun he => h (Except.ok.inj he))
  | .error u, .error v =>
    if h : u = v then isTrue (congrArg Except.error h)
    else isFalse (fun he => h (Except.error.inj he))
  | .ok _, .error _ => isFalse (fun he => Except.noConfusion he)
  | .error _, .ok _ => isFalse (fun he => Except.noConfusion he)

def layoutErrOf : Except LayoutErr TuiElement → Option LayoutErr
  | .error e => some e
  | .ok _ => none

def sizeOf' : Except LayoutErr TuiElement → Except LayoutErr U16Vec2
  | .error e => .error e
  | .ok t => .ok t.size

def childWidthsOf : Except LayoutErr TuiElement → Except LayoutErr (List Nat)
  | .error e => .error e
  | .ok t => .ok (t.children.map (fun c => c.size.x))

def childSizesOf : Except LayoutErr TuiElement → Except LayoutErr (List U16Vec2)
  | .error e => .error e
  | .ok t => .ok (t.children.map TuiElement.size)

def childPosXsOf : Except LayoutErr TuiElement → Except LayoutErr (List Nat)
  | .error e => .error e
  | .ok t => .ok (t.children.map (fun c => c.position.x))

def params0 (w h : Size) (dir : Direction) (j : Justify) : LayoutParams :=
  ⟨w, h, dir, ⟨0, 0, 0, 0⟩, 0, j⟩

def leaf0 (w h : Size) : TuiElement :=
  .mk (params0 w h .Horizontal .Start) ⟨0, 0⟩ ⟨0, 0⟩ []

/-- C2 family: a `Fixed(w) × Fixed(1)` horizontal container with three
`Grow × Fixed(1)` leaf children, no gap, no padding. -/
def c2tree (w : Nat) : TuiElement :=
  .mk (params0 (.Fixed w) (.Fixed 1) .Horizontal .Start) ⟨0, 0⟩ ⟨0, 0⟩
    [leaf0 .Grow (.Fixed 1), leaf0 .Grow (.Fixed 1), leaf0 .Grow (.Fixed 1)]

/-- The fit-pass output for `c2tree w` (three `Grow` leaves measured
`0 × min 1 w` inside the `Fixed(w) × Fixed(1)` parent). -/
def c2fitTree (w : Nat) : TuiElement :=
  .mk (params0 (.Fixed w) (.Fixed 1) .Horizontal .Start) ⟨0, 0⟩ ⟨w, 1⟩
    [.mk (params0 .Grow (.Fixed 1) .Horizontal .Start) ⟨0, 0⟩ ⟨0, Nat.min 1 w⟩ [],
     .mk (params0 .Grow (.Fixed 1) .Horizontal .Start) ⟨0, 0⟩ ⟨0, Nat.min 1 w⟩ [],
     .mk (params0 .Grow (.Fixed 1) .Horizontal .Start) ⟨0, 0⟩ ⟨0, Nat.min 1 w⟩ []]

/-- C4 family: a `Fixed(w) × Fixed(1)` horizontal container with a single
`Fixed(c) × Fixed(1)` child and the given justify policy. -/
def c4tree (w c : Nat) (j : Justify) : TuiElement :=
  .mk (params0 (.Fixed w) (.Fixed 1) .Horizontal j) ⟨0, 0⟩ ⟨0, 0⟩
    [leaf0 (.Fixed c) (.Fixed 1)]

/-- C4, childless container with the given justify policy. -/
def c4leaf (w : Nat) (j : Justify) : TuiElement :=
  .mk (params0 (.Fixed w) (.Fixed 1) .Horizontal j) ⟨0, 0⟩ ⟨0, 0⟩ []

/-- C5 input: `Fixed(5) × Fixed(100)` parent whose only child uses
`Fit × Fit` and contains a `Fixed(10) × Fixed(10)` grandchild. -/
def c5child : TuiElement :=
  .mk (params0 .Fit .Fit .Horizontal .Start) ⟨0, 0⟩ ⟨0, 0⟩ [leaf0 (.Fixed 10) (.Fixed 10)]

def c5tree : TuiElement :=
  .mk (params0 (.Fixed 5) (.Fixed 100) .Horizontal .Start) ⟨0, 0⟩ ⟨0, 0⟩ [c5child]

/-- C6 family: `Fixed(w) × Fixed(1)` parent, one `Grow` leaf (content
width 0) and one `Grow` child whose `Fixed(c)` grandchild gives it content
width `c`. -/
def c6tree (w c : Nat) : TuiElement :=
  .mk (params0 (.Fixed w) (.Fixed 1) .Horizontal .Start) ⟨0, 0⟩ ⟨0, 0⟩
    [leaf0 .Grow (.Fixed 1),
     .mk (params0 .Grow (.Fixed 1) .Horizontal .Start) ⟨0, 0⟩ ⟨0, 0⟩
       [leaf0 (.Fixed c) (.Fixed 1)]]

/-- C8 input: `Fixed(5) × Fixed(1)` root with a `Fixed(10) × Fixed(1)`
child; the child's declared width exceeds the parent's inner width. -/
def c8tree : TuiElement :=
  .mk (params0 (.Fixed 5) (.Fixed 1) .Horizontal .Start) ⟨0, 0⟩ ⟨0, 0⟩
    [leaf0 (.Fixed 10) (.Fixed 1)]

/-- The layout result for `c8tree` (checked by `rfl` in the witness). -/
def c8res : TuiElement :=
  .mk (params0 (.Fixed 5) (.Fixed 1) .Horizontal .Start) ⟨0, 0⟩ ⟨5, 1⟩
    [.mk (params0 (.Fixed 10) (.Fixed 1) .Horizontal .Start) ⟨0, 0⟩ ⟨5, 1⟩ []]

/-! ### Parameter-only and parameter-plus-size projections of a tree.

`skeleton` erases everything the layout passes are allowed to write (sizes
and positions); `measured` erases only positions.  Both are used to state
the frame-effect and idempotence claims. -/
inductive Skeleton where
  | mk (layout_params : LayoutParams) (children : List Skeleton)

inductive MTree where
  | mk (layout_params : LayoutParams) (size : U16Vec2) (children : List MTree)

def skeleton : TuiElement → Skeleton
  | .mk p _ _ ch => .mk p (ch.attach.map (fun c => skeleton c.1))
decreasing_by
  have := List.sizeOf_lt_of_mem c.2
  simp only [TuiElement.mk.sizeOf_spec]
  omega

def measured : TuiElement → MTree
  | .mk p _ sz ch => .mk p sz (ch.attach.map (fun c => measured c.1))
decreasing_by
  have := List.sizeOf_lt_of_mem c.2
  simp only [TuiElement.mk.sizeOf_spec]
  omega

/-- The measured view of a fallible pass result. -/
def exceptMeasured : Except LayoutErr TuiElement → Except LayoutErr MTree
  | .error e => .error e
  | .ok t => .ok (measured t)

namespace Mana

/-! ### The mana-tui-elemental layout revision.

Model of `ElementCtx::{calculate_fit_sizes, calculate_grow_sizes,
calculate_positions}` in `src/mana-tui-elemental/src/layout.rs`, on trees
whose nodes carry the components `spawn_ui` always installs (`Props` with
size and position initialised to zero, `Width`, `Height`, `Padding`,
`Direction`, `Gap`, `MainJustify`, `Children`), so the hecs component
lookups cannot fail.  Differences from the ratatui-elemental revision that
matter to the claims: the fit pass recurses into all children before the
clamping loop, and its `y` clamp is guarded by the PARENT's `height`
policy (the `x` clamp by the parent's `width` policy) while both clamp
into `[0, max_size.x]`; the growth pass collects all children into a
buffer sorted stably by current main-axis size (`sort_by_key`, modelled
by a stable insertion sort) and walks smallest-group to next-size,
adding (not replacing) on the final even distribution. -/

def calculate_fit_sizes : Nat → TuiElement → Except LayoutErr TuiElement
  | 0, _ => .error .fuel
  | fuel+1, .mk p pos sz ch =>
    let size1 : U16Vec2 :=
      ⟨(match p.width with | .Fixed n => n | _ => sz.x),
       (match p.height with | .Fixed n => n | _ => sz.y)⟩
    let max_size := size1.saturating_sub
      (u16vec2 (p.padding.right + p.padding.left) (p.padding.bottom + p.padding.top))
    match mapME (fun c => Mana.calculate_fit_sizes fuel c) ch with
    | .error e => .error e
    | .ok ch0 =>
      let ch' := ch0.map (fun c =>
        let cx := if p.width.should_clamp then clamp0 c.size.x max_size.x else c.size.x
        let cy := if p.height.should_clamp then clamp0 c.size.y max_size.x else c.size.y
        c.withSize ⟨cx, cy⟩)
      let space_used := ch'.foldl (fun (acc : AxisSizes) c => acc.increase c.size p.direction)
        (⟨0, 0⟩ : AxisSizes)
      let space_used := space_used.pad p.padding p.direction
      let space_used :=
        { space_used with main_axis := space_used.main_axis + (ch.length - 1) * p.gap }
      let su := space_used.to_u16vec2 p.direction
      .ok (.mk p pos
        ⟨(match p.width with | .Fit | .Grow => su.x | .Fixed _ => size1.x),
         (match p.height with | .Fit | .Grow => su.y | .Fixed _ => size1.y)⟩ ch')

/-- `GrowEntry` of the mana growth pass: grow flag, axified size, child
identity (modelled by the child's index in the children list). -/
structure GrowEntry where
  grow_flag : Bool
  size : AxisSizes
  entity : Nat
deriving DecidableEq

/-- Stable insertion into a list sorted ascending by main-axis size:
strictly smaller entries stay in front, so entries with equal keys keep
their original relative order, as Rust's stable `sort_by_key` does. -/
def sortInsert (e : GrowEntry) : List GrowEntry → List GrowEntry
  | [] => [e]
  | x :: xs =>
    if x.size.main_axis < e.size.main_axis then x :: sortInsert e xs
    else e :: x :: xs

def sortByMain : List GrowEntry → List GrowEntry
  | [] => []
  | x :: xs => sortInsert x (sortByMain xs)

def listUpdateAt : Nat → (α → α) → List α → List α
  | _, _, [] => []
  | 0, f, x :: xs => f x :: xs
  | n+1, f, x :: xs => x :: listUpdateAt n f xs

/-- The final even distribution (`second_smallest = None`): every grow
entry's main size is INCREASED by `growth`, the first `remainder` of them
by one more. -/
def manaDistribute (growth : Nat) : Nat → List GrowEntry → List GrowEntry
  | _, [] => []
  | remainder, e :: es =>
    if e.grow_flag then
      match remainder with
      | 0 =>
        { e with size := { e.size with main_axis := e.size.main_axis + growth } } ::
          manaDistribute growth 0 es
      | r+1 =>
        { e with size := { e.size with main_axis := e.size.main_axis + growth + 1 } } ::
          manaDistribute growth r es
    else e :: manaDistribute growth remainder es

/-- Raise the grow entries among `buffer[..=endIdx]` to `target`. -/
def manaRaise (target : Nat) : Nat → List GrowEntry → List GrowEntry
  | _, [] => []
  | 0, e :: es =>
    (if e.grow_flag then { e with size := { e.size with main_axis := target } } else e) :: es
  | n+1, e :: es =>
    (if e.grow_flag then { e with size := { e.size with main_axis := target } } else e) ::
      manaRaise target n es

/-- The `while let Some([smallest, rest @ ..]) = buffer.get_mut(..)` loop
of the mana growth pass: if all entries share the smallest size,
distribute `remaining` over `rest.filter(is_grow).count() + 1` entries
(the `+ 1` counts the smallest entry whether or not it grows) and stop;
otherwise raise the leading equal-smallest group to the next size,
reducing `remaining` by that single step (`saturating_sub`), and loop. -/
def manaGrowLoop : Nat → Nat → List GrowEntry → Except LayoutErr (List GrowEntry)
  | _, _, [] => .ok []
  | 0, _, _ :: _ => .error .fuel
  | f+1, remaining, smallest :: rest =>
    match rest.findIdx? (fun e => decide (¬ e.size.main_axis = smallest.size.main_axis)) with
    | none =>
      let grow_count := (rest.filter (fun e => e.grow_flag)).length + 1
      .ok (manaDistribute (remaining / grow_count) (remaining % grow_count) (smallest :: rest))
    | some p =>
      let target := ((rest.get? p).map (fun e => e.size.main_axis)).getD 0
      let remaining' := remaining - (target - smallest.size.main_axis)
      manaGrowLoop f remaining' (manaRaise target p (smallest :: rest))

/-- Write every buffer entry's size back onto its entity. -/
def manaWriteBack (dir : Direction) (buffer : List GrowEntry) (ch : List TuiElement) :
    List TuiElement :=
  buffer.foldl (fun acc e => listUpdateAt e.entity (fun c => c.withSize (e.size.to_u16vec2 dir)) acc) ch

def calculate_grow_sizes : Nat → TuiElement → Except LayoutErr TuiElement
  | 0, _ => .error .fuel
  | fuel+1, .mk p pos sz ch =>
    let inner_size := sz.saturating_sub
      (u16vec2 (p.padding.right + p.padding.left) (p.padding.bottom + p.padding.top))
    let space_used := ch.foldl (fun acc c => acc + c.size) U16Vec2.ZERO
    let remaining0 := inner_size.saturating_sub space_used
    let remaining1 := axify remaining0 p.direction
    let remaining := remaining1.main_axis - (ch.length - 1) * p.gap
    let ch1 := ch.map (fun c =>
      if (c.layout_params.cross_size p.direction).is_grow then
        let s := AxisSizes.from_u16vec2 c.size p.direction
        let s := { s with cross_axis := (axify inner_size p.direction).cross_axis }
        c.withSize (s.to_u16vec2 p.direction)
      else c)
    let buffer := ch1.enum.map (fun ic =>
      GrowEntry.mk ((ic.2.layout_params.main_size p.direction).is_grow)
        (axify ic.2.size p.direction) ic.1)
    match manaGrowLoop (fuel+1) remaining (sortByMain buffer) with
    | .error e => .error e
    | .ok buffer' =>
      let ch2 := manaWriteBack p.direction buffer' ch1
      match mapME (fun c => Mana.calculate_grow_sizes fuel c) ch2 with
      | .error e => .error e
      | .ok ch3 => .ok (.mk p pos sz ch3)

/-- `Mana::calculate_positions` is textually identical to the
ratatui-elemental `calculate_positions` (same match on `main_justify`,
same child loop), so the pass is shared. -/
def calculate_positions : Nat → TuiElement → Except LayoutErr TuiElement :=
  RatatuiMana.calculate_positions

def calculate_layout (fuel : Nat) (t : TuiElement) : Except LayoutErr TuiElement :=
  chainE (chainE (Mana.calculate_fit_sizes fuel t) (Mana.calculate_grow_sizes fuel))
    (Mana.calculate_positions fuel)

end Mana

/-- C9 counterexample input for the mana revision: a `Fit × Fixed(5)`
vertical parent (as `spawn_ui` defaults direction to vertical) with a
`Fixed(3) × Fixed(4)` child; sizes and positions start at zero as in
`Props::default`. -/
def c9tree : TuiElement :=
  .mk (params0 .Fit (.Fixed 5) .Vertical .Start) ⟨0, 0⟩ ⟨0, 0⟩
    [leaf0 (.Fixed 3) (.Fixed 4)]

/-- The height of the first child, used to observe the non-idempotence. -/
def firstChildHeight : Except LayoutErr TuiElement → Option Nat
  | .ok t =>
    match t.children with
    | c :: _ => some c.size.y
    | [] => none
  | .error _ => none

/-! ### The render walk.

Model of `ElementCtx::render` in `src/ratatui-elemental/src/layout.rs`
(lines 361-375).  The render walk runs over the store, so the model keeps
the store shape: a slot list of optional elements addressed by index, a
missing slot standing for a stale or dangling `ElementKey`.  `self[root]`
on a missing key and the
`.expect("tui element points to nonexisting widget")` on a missing widget
both panic in the source; they are the `missingElement` / `missingWidget`
errors here.  The walk returns the list of draw calls (element index and
clipped rectangle) it issues. -/
structure Rect where
  x : Nat
  y : Nat
  width : Nat
  height : Nat
deriving DecidableEq

/-- `ratatui::layout::Rect::intersection` (saturating at zero when the
rectangles do not overlap). -/
def Rect.intersection (a b : Rect) : Rect :=
  let x1 := Nat.max a.x b.x
  let y1 := Nat.max a.y b.y
  let x2 := Nat.min (a.x + a.width) (b.x + b.width)
  let y2 := Nat.min (a.y + a.height) (b.y + b.height)
  ⟨x1, y1, x2 - x1, y2 - y1⟩

structure RenderEl where
  position : U16Vec2
  size : U16Vec2
  widget_found : Bool
  children : List Nat
deriving DecidableEq

/-- `TuiElement::split_area`. -/
def split_area (el : RenderEl) (area : Rect) : Rect :=
  area.intersection ⟨el.position.x, el.position.y, el.size.x, el.size.y⟩

inductive RenderErr where
  | fuel
  | missingElement
  | missingWidget
deriving DecidableEq

/-- `self[key]` on the element store: a present slot yields the element,
a missing or vacant slot is the lookup failure (`panic` in the source). -/
def storeGet (store : List (Option RenderEl)) (i : Nat) : Option RenderEl :=
  match store.get? i with
  | some (some el) => some el
  | _ => none

/-- Error-propagating map for the render walk. -/
def mapMR (f : α → Except RenderErr β) : List α → Except RenderErr (List β)
  | [] => .ok []
  | x :: xs =>
    match f x with
    | .error e => .error e
    | .ok y =>
      match mapMR f xs with
      | .error e => .error e
      | .ok ys => .ok (y :: ys)

def render (store : List (Option RenderEl)) :
    Nat → Nat → Rect → Except RenderErr (List (Nat × Rect))
  | 0, _, _ => .error .fuel
  | f+1, root, area =>
    match storeGet store root with
    | none => .error .missingElement
    | some el =>
      let area := split_area el area
      if el.widget_found = false then .error .missingWidget
      else
        match mapMR (fun c => render store f c area) el.children with
        | .error e => .error e
        | .ok draws => .ok ((root, area) :: draws.flatten)

/-- C7 input: a two-slot store whose root (slot 0) is present and lists
slot 1 as a child, but slot 1 is vacant (a dangling child handle). -/
def c7store : List (Option RenderEl) :=
  [some ⟨⟨0, 0⟩, ⟨10, 10⟩, true, [1]⟩, none]

def renderErrOf : Except RenderErr (List (Nat × Rect)) → Option RenderErr
  | .error e => some e
  | .ok _ => none

/-- The pieces of pass 1's body under their own names: `fitSize1` is the
pre-size (Fixed axes resolved), `fitMaxSize` the padded clamp bound,
`fitChild` the per-child recurse-and-clamp closure, `fitAssemble` the
accumulation of the children into the node's own size. -/
def fitSize1 (p : LayoutParams) (sz : U16Vec2) : U16Vec2 :=
  ⟨(match p.width with | .Fixed n => n | _ => sz.x),
   (match p.height with | .Fixed n => n | _ => sz.y)⟩

def fitMaxSize (p : LayoutParams) (sz : U16Vec2) : U16Vec2 :=
  (fitSize1 p sz).saturating_sub
    (u16vec2 (p.padding.right + p.padding.left) (p.padding.bottom + p.padding.top))

def fitChild (f : Nat) (p : LayoutParams) (ms : U16Vec2) (c : TuiElement) :
    Except LayoutErr TuiElement :=
  match calculate_fit_sizes f c with
  | .error e => .error e
  | .ok c' =>
    let cx := if p.width.should_clamp then clamp0 c'.size.x ms.x else c'.size.x
    let cy := if p.width.should_clamp then clamp0 c'.size.y ms.x else c'.size.y
    .ok (c'.withSize ⟨cx, cy⟩)

def fitAssemble (p : LayoutParams) (pos sz : U16Vec2) (nch : Nat)
    (ch' : List TuiElement) : TuiElement :=
  let space_used := ch'.foldl (fun (acc : AxisSizes) c => acc.increase c.size p.direction)
    (⟨0, 0⟩ : AxisSizes)
  let space_used := space_used.pad p.padding p.direction
  let space_used :=
    { space_used with main_axis := space_used.main_axis + (nch - 1) * p.gap }
  let su := space_used.to_u16vec2 p.direction
  .mk p pos
    ⟨(match p.width with | .Fit | .Grow => su.x | .Fixed _ => (fitSize1 p sz).x),
     (match p.height with | .Fit | .Grow => su.y | .Fixed _ => (fitSize1 p sz).y)⟩ ch'

/-- The pieces of pass 2's body: padded bound, remaining main-axis space,
the cross-axis pre-adjustment of `Grow`-cross children. -/
def growMaxSize (p : LayoutParams) (sz : U16Vec2) : U16Vec2 :=
  sz.saturating_sub
    (u16vec2 (p.padding.right + p.padding.left) (p.padding.bottom + p.padding.top))

def growRemaining (p : LayoutParams) (sz : U16Vec2) (ch : List TuiElement) : AxisSizes :=
  let used_space := ch.foldl (fun acc c => acc + c.size) U16Vec2.ZERO
  let remaining0 := (sz.saturating_sub used_space).clampVec U16Vec2.ZERO (growMaxSize p sz)
  let remaining1 := axify remaining0 p.direction
  { remaining1 with main_axis := remaining1.main_axis - (ch.length - 1) * p.gap }

def growCrossAdjust (p : LayoutParams) (ms : U16Vec2) (ch : List TuiElement) :
    List TuiElement :=
  ch.map (fun c =>
    if (c.layout_params.cross_size p.direction).is_grow then
      let s := AxisSizes.from_u16vec2 c.size p.direction
      let s := { s with cross_axis := (axify ms p.direction).cross_axis }
      c.withSize (s.to_u16vec2 p.direction)
    else c)

/-- Pass 3's leftover main-axis space. -/
def posRemaining (p : LayoutParams) (sz : U16Vec2) (ch : List TuiElement) : Nat :=
  let space_used := (ch.map (fun c => (axify c.size p.direction).main_axis)).foldl (· + ·) 0
  let space_used := space_used + p.gap * (ch.length - 1)
  ((axify sz p.direction).shrink p.padding p.direction).main_axis - space_used

theorem arenaInv_empty : ArenaInv (TypeArena.empty V) := by
  constructor
  · rfl
  · intro s hs
    simp [TypeArena.empty] at hs

theorem arenaInv_insert (a : TypeArena V) (v : V) (h : ArenaInv a) :
    ArenaInv (a.insert v).2 := by
  obtain ⟨hnf, hslots⟩ := h
  have hnone : a.slots.get? a.next_free = none := by
    rw [hnf]
    exact List.get?_eq_none.mpr le_rfl
  unfold TypeArena.insert
  rw [hnone]
  refine ⟨by simp [TypeArena.insertAppend], ?_⟩
  intro s hs
  simp only [TypeArena.insertAppend, List.mem_append, List.mem_singleton] at hs
  rcases hs with hs | hs
  · exact hslots s hs
  · subst hs
    exact Or.inl ⟨rfl, v, rfl⟩

theorem arenaInv_remove (a : TypeArena V) (k : TypeKey) (v : V) (a' : TypeArena V)
    (h : ArenaInv a) (hrem : a.remove k = some (v, a')) : ArenaInv a' := by
  obtain ⟨hnf, hslots⟩ := h
  cases hget : a.slots[k.index]? with
  | none => simp [TypeArena.remove, List.get?_eq_getElem?, hget] at hrem
  | some slot =>
    by_cases hv : slot.vacant = true
    · simp [TypeArena.remove, List.get?_eq_getElem?, hget, hv] at hrem
    · have hmem : slot ∈ a.slots := List.get?_mem (by rw [List.get?_eq_getElem?]; exact hget)
      rcases hslots slot hmem with ⟨hv1, w, hocc⟩ | ⟨hv2, nf, hvac⟩
      · simp only [TypeArena.remove, List.get?_eq_getElem?, hget, hv, if_false, hocc,
          Option.some.injEq, Prod.mk.injEq, Bool.false_eq_true] at hrem
        obtain ⟨-, ha'⟩ := hrem
        subst ha'
        constructor
        · simpa using hnf
        · intro s hs
          rcases List.mem_or_eq_of_mem_set hs with hs | hs
          · exact hslots s hs
          · subst hs
            exact Or.inr ⟨by rw [hv1], a.next_free, rfl⟩
      · exact absurd (by simp [TypeSlot.vacant, hv2]) hv

theorem arenaInv_step (a b : TypeArena V) (h : ArenaInv a) (hs : ArenaStep a b) :
    ArenaInv b := by
  match hs with
  | .insert _ v => exact arenaInv_insert a v h
  | .remove _ k v _ hrem => exact arenaInv_remove a k v b h hrem

theorem arenaInv_reachFrom (a b : TypeArena V) (h : ArenaInv a)
    (hr : ArenaReachFrom a b) : ArenaInv b := by
  induction hr with
  | refl => exact h
  | tail _ hstep ih => exact arenaInv_step _ _ ih hstep

theorem arenaInv_reach (a : TypeArena V) (h : ArenaReach a) : ArenaInv a :=
  arenaInv_reachFrom _ _ arenaInv_empty h

theorem remove_ok_slot (a a' : TypeArena V) (k : TypeKey) (v : V)
    (hInv : ArenaInv a) (hrem : a.remove k = some (v, a')) :
    a'.slots[k.index]? = some ⟨.vacant a.next_free, 2⟩ := by
  obtain ⟨-, hslots⟩ := hInv
  cases hget : a.slots[k.index]? with
  | none => simp [TypeArena.remove, List.get?_eq_getElem?, hget] at hrem
  | some slot =>
    by_cases hv : slot.vacant = true
    · simp [TypeArena.remove, List.get?_eq_getElem?, hget, hv] at hrem
    · have hmem : slot ∈ a.slots := List.get?_mem (by rw [List.get?_eq_getElem?]; exact hget)
      rcases hslots slot hmem with ⟨hv1, w, hocc⟩ | ⟨hv2, nf, hvac⟩
      · simp only [TypeArena.remove, List.get?_eq_getElem?, hget, hv, if_false, hocc,
          Option.some.injEq, Prod.mk.injEq, Bool.false_eq_true] at hrem
        obtain ⟨-, ha'⟩ := hrem
        subst ha'
        have hlt : k.index < a.slots.length := by
          rcases List.getElem?_eq_some.mp hget with ⟨h, -⟩
          exact h
        simp [List.getElem?_set, hlt, hv1]
      · exact absurd (by simp [TypeSlot.vacant, hv2]) hv

theorem arenaStep_preserves_vacant (b c : TypeArena V) (i : Nat) (s : TypeSlot V)
    (hInv : ArenaInv b) (hs : ArenaStep b c) (hvac : s.version % 2 = 0)
    (hslot : b.slots[i]? = some s) : c.slots[i]? = some s := by
  have hlt : i < b.slots.length := by
    rcases List.getElem?_eq_some.mp hslot with ⟨h, -⟩
    exact h
  match hs with
  | .insert _ v =>
    have hnone : b.slots.get? b.next_free = none := by
      rw [hInv.1]
      exact List.get?_eq_none.mpr le_rfl
    have hform : (b.insert v).2.slots = b.slots ++ [⟨.occupied v, 1⟩] := by
      unfold TypeArena.insert
      rw [hnone]
      rfl
    show ((b.insert v).2).slots[i]? = some s
    rw [hform, List.getElem?_append]
    simp [hlt, hslot]
  | .remove _ k v _ hrem =>
    cases hget : b.slots[k.index]? with
    | none => simp [TypeArena.remove, List.get?_eq_getElem?, hget] at hrem
    | some slot =>
      by_cases hv : slot.vacant = true
      · simp [TypeArena.remove, List.get?_eq_getElem?, hget, hv] at hrem
      · cases hu : slot.u with
        | vacant nf => simp [TypeArena.remove, List.get?_eq_getElem?, hget, hv, hu] at hrem
        | occupied w =>
          simp only [TypeArena.remove, List.get?_eq_getElem?, hget, hv, if_false, hu,
            Option.some.injEq, Prod.mk.injEq, Bool.false_eq_true] at hrem
          obtain ⟨-, hc⟩ := hrem
          subst hc
          have hne : k.index ≠ i := by
            intro he
            rw [he, hslot] at hget
            injection hget with h2
            subst h2
            exact hv (by simp [TypeSlot.vacant, hvac])
          show (b.slots.set k.index _)[i]? = some s
          rw [List.getElem?_set_ne hne]
          exact hslot

theorem arenaReachFrom_preserves_vacant (b c : TypeArena V) (i : Nat) (s : TypeSlot V)
    (hInv : ArenaInv b) (hr : ArenaReachFrom b c) (hvac : s.version % 2 = 0)
    (hslot : b.slots[i]? = some s) : c.slots[i]? = some s := by
  induction hr with
  | refl => exact hslot
  | tail hr0 hstep ih =>
    exact arenaStep_preserves_vacant _ _ i s (arenaInv_reachFrom _ _ hInv hr0) hstep hvac ih

/-- C1.  Stale-handle safety of the store: starting from any reachable
arena state, once `remove` succeeds for a key `k`, then after any further
sequence of inserts or removes (in particular the inserts that create new
entities after the removal), `get`, `get_widget` and `remove` called with
`k` all return `None`, and the generation stored in `k`'s slot (2, vacant)
never again equals the odd generation recorded in any key the arena issued
for that slot.  The vacuous-truth core of the claim is visible here: the
slot freed by `remove` is never reoccupied at all, so no entity B can ever
share A's slot, and every lookup through A's key keeps failing. -/
theorem C1_stale_handle_safety (a a1 a2 : TypeArena V) (k : TypeKey) (v : V)
    (hreach : ArenaReach a) (hrem : a.remove k = some (v, a1))
    (hsteps : ArenaReachFrom a1 a2) :
    a2.get k = none ∧ a2.get_widget k = none ∧ a2.remove k = none ∧
    ∀ s, a2.slots[k.index]? = some s →
      s.vacant = true ∧ (k.version % 2 = 1 → s.version ≠ k.version) := by
  have hInv : ArenaInv a := arenaInv_reach a hreach
  have hInv1 : ArenaInv a1 :=
    arenaInv_step a a1 hInv (ArenaStep.remove a k v a1 hrem)
  have hslot1 : a1.slots[k.index]? = some ⟨.vacant a.next_free, 2⟩ :=
    remove_ok_slot a a1 k v hInv hrem
  have hslot2 : a2.slots[k.index]? = some ⟨.vacant a.next_free, 2⟩ :=
    arenaReachFrom_preserves_vacant a1 a2 k.index ⟨.vacant a.next_free, 2⟩ hInv1 hsteps
      (Nat.mod_self 2) hslot1
  refine ⟨?_, ?_, ?_, ?_⟩
  · simp [TypeArena.get, List.get?_eq_getElem?, hslot2, TypeSlot.vacant]
  · simp [TypeArena.get_widget, List.get?_eq_getElem?, hslot2]
  · simp [TypeArena.remove, List.get?_eq_getElem?, hslot2, TypeSlot.vacant]
  · intro s hs
    rw [hslot2] at hs
    have : (⟨.vacant a.next_free, 2⟩ : TypeSlot V) = s := by injection hs
    subst this
    refine ⟨by simp [TypeSlot.vacant], ?_⟩
    intro hodd he
    rw [← he] at hodd
    simp at hodd

theorem C1_stale_handle_safety_witness :
    c1ArenaAfter.get c1Key = none ∧ c1ArenaAfter.get_widget c1Key = none ∧
    c1ArenaAfter.remove c1Key = none := by
  have h := C1_stale_handle_safety c1ArenaA c1ArenaFreed c1ArenaAfter c1Key 5
    (Relation.ReflTransGen.single (ArenaStep.insert (TypeArena.empty Nat) 5))
    (by decide)
    (Relation.ReflTransGen.single (ArenaStep.insert c1ArenaFreed 7))
  exact ⟨h.1, h.2.1, h.2.2.1⟩

/-- C3.  Evaluation of the store at the claim's scenario: from a fresh
arena, insert a value (key index 0), remove it successfully, then insert
again.  The claim (and `typemap.rs`'s slotmap-inspired design, whose
`VacantSlot.next_free` field and whole vacant-reuse branch of `insert`
exist only for this purpose) says the second insert must reuse freed slot
0; the code returns a key with slot index 1 and grows the slot list to
length 2, because `TypeArena::remove` stores the old free-list head into
the freed slot but never points `self.next_free` at the freed slot. -/
theorem C3_insert_appends_instead_of_reusing_freed_slot :
    ((TypeArena.empty Nat).insert 5).2.remove ⟨0, 1⟩ = some (5, c1ArenaFreed) ∧
    (c1ArenaFreed.insert 7).1.index = 1 ∧
    (c1ArenaFreed.insert 7).2.slots.length = 2 := by
  decide

set_option maxHeartbeats 4000000 in
/-- C2, counterexample.  Inner main size 11 over three `Grow` children:
the growth pass of ratatui-elemental produces the widths 5, 3, 3 — the
whole remainder `11 % 3 = 2` goes to the first growing child — and not
4, 4, 3 as the claim's one-extra-unit-per-child distribution requires. -/
theorem C2_remainder_goes_whole_to_first_child :
    childWidthsOf (chainE (calculate_fit_sizes 4 (c2tree 11)) (calculate_grow_sizes 4)) =
      .ok [5, 3, 3] ∧ ([5, 3, 3] : List Nat) ≠ [4, 4, 3] := by
  exact ⟨by decide, by decide⟩

set_option maxHeartbeats 4000000 in
/-- C4, counterexample.  A `SpaceBetween` container with exactly one child
makes `calculate_positions` divide `remaining_size` by
`children.len() - 1 = 0`: the call fails (panics in Rust) instead of
degenerating to `Start` as the claim requires. -/
theorem C4_space_between_one_child_divides_by_zero :
    layoutErrOf (calculate_layout 4 (c4tree 10 2 .SpaceBetween)) = some .divByZero := by
  decide

set_option maxHeartbeats 4000000 in
/-- C5, counterexample.  The `Fit × Fit` child of a `Fixed(5) × Fixed(100)`
parent computes intrinsic size (10, 10) on its own, yet after the parent's
fit pass it measures (5, 5): it was clamped although its policies are
`Fit` (the clamp is keyed on the PARENT's `Fixed` width), and its height
was clamped to the parent's inner WIDTH 5, not its inner height 100. -/
theorem C5_fit_child_clamped_by_parent_width :
    childSizesOf (calculate_fit_sizes 4 c5tree) = .ok [u16vec2 5 5] ∧
    sizeOf' (calculate_fit_sizes 4 c5child) = .ok (u16vec2 10 10) ∧
    (5 : Nat) ≠ 10 := by
  exact ⟨by decide, by decide, by decide⟩

set_option maxHeartbeats 4000000 in
/-- C6, counterexample.  `Fixed(8)` container with `Grow` children of
content widths 0 and 5: `remaining = 3` and the catch-up step computes
`remaining_size - (bsize - asize)` with `bsize - asize = 5 > 3`, a plain
(non-saturating) `u16` subtraction that underflows, so the growth pass
fails instead of saturating at zero as the claim requires. -/
theorem C6_grow_pass_subtraction_underflows :
    layoutErrOf (chainE (calculate_fit_sizes 4 (c6tree 8 5)) (calculate_grow_sizes 4)) =
      some .underflow := by
  decide

set_option maxHeartbeats 4000000 in
/-- C7, counterexample.  Rendering a store whose root lists a vacant slot
as a child aborts the whole call with a lookup failure (the source panics
through `Index`/`expect`), instead of treating the dangling node as
zero-area and drawing nothing for it as the claim requires. -/
theorem C7_render_aborts_on_dangling_child :
    renderErrOf (render c7store 4 0 ⟨0, 0, 20, 20⟩) = some .missingElement := by
  decide

set_option maxHeartbeats 4000000 in
/-- C8, counterexample.  The child of `c8tree` declares
`width = Fixed(10)`, but after `calculate_layout` its computed width is 5:
pass 1 clamps every child of a `Fixed`-width parent into the parent's
inner width, so Fixed-size invariance fails for non-root nodes. -/
theorem C8_fixed_child_clamped_inside_fixed_parent :
    childWidthsOf (calculate_layout 4 c8tree) = .ok [5] ∧ (5 : Nat) ≠ 10 := by
  exact ⟨by decide, by decide⟩

set_option maxHeartbeats 4000000 in
/-- C9, counterexample.  In the mana-tui-elemental revision the fit pass
clamps a child's height against `max_size.x`, computed from the parent's
stale width of the previous run: on `c9tree` the first `calculate_layout`
leaves the child 0 cells high, the second 3 — two successive runs on an
unmodified tree disagree. -/
theorem C9_mana_layout_not_idempotent :
    firstChildHeight (Mana.calculate_layout 4 c9tree) = some 0 ∧
    firstChildHeight (chainE (Mana.calculate_layout 4 c9tree) (Mana.calculate_layout 4)) =
      some 3 ∧ (0 : Nat) ≠ 3 := by
  exact ⟨by decide, by decide, by decide⟩

theorem growLoop_nil (dir : Direction) (f : Nat) (r : AxisSizes) :
    growLoop dir (f+1) [] r = .ok [] := by
  unfold growLoop
  by_cases h : r.main_axis = 0
  · simp [h]
  · simp [h, growIter, growScan, growScanGo]

/-- The growth pass leaves a childless node untouched. -/
theorem grow_sizes_leaf (f : Nat) (p : LayoutParams) (pos sz : U16Vec2) :
    calculate_grow_sizes (f+1) (.mk p pos sz []) = .ok (.mk p pos sz []) := by
  unfold calculate_grow_sizes
  simp [growLoop_nil, mapME]

theorem withSize_self (c : TuiElement) : c.withSize c.size = c := by
  cases c
  rfl

/-- The growth loop does not touch a list whose members all have a
non-`Grow` main-axis policy. -/
theorem growScanGo_no_grow (dir : Direction) (l rest : List ChildView) (i : Nat)
    (st : ScanState) (h : ∀ c ∈ rest, ((c.layout_params.main_size dir).is_grow) = false) :
    growScanGo dir l rest i st = st := by
  induction rest generalizing i st with
  | nil => rfl
  | cons c cs ih =>
    have hc := h c (by simp)
    unfold growScanGo
    rw [hc]
    simp only [Bool.false_eq_true, if_false]
    exact ih (i+1) st (fun d hd => h d (by simp [hd]))

theorem growLoop_no_grow (dir : Direction) (f : Nat) (l : List ChildView) (r : AxisSizes)
    (h : ∀ c ∈ l, ((c.layout_params.main_size dir).is_grow) = false) :
    growLoop dir (f+1) l r = .ok l := by
  unfold growLoop
  by_cases hr : r.main_axis = 0
  · simp [hr]
  · simp only [hr, if_false]
    unfold growIter growScan
    rw [growScanGo_no_grow dir l l 0 _ h]
    simp

theorem U16Vec2.add_def (a b : U16Vec2) : a + b = ⟨a.x + b.x, a.y + b.y⟩ := rfl

theorem c2tree_fit (f w : Nat) :
    calculate_fit_sizes (f+2) (c2tree w) = .ok (c2fitTree w) := by
  simp [calculate_fit_sizes, mapME, c2tree, c2fitTree, leaf0, params0, clamp0,
    Size.should_clamp, U16Vec2.saturating_sub, u16vec2, AxisSizes.increase, AxisSizes.pad,
    AxisSizes.to_u16vec2, TuiElement.withSize, TuiElement.size]

theorem c2tree_grow (f w : Nat) (hw : ¬ w = 0) :
    calculate_grow_sizes (f+2) (c2fitTree w) =
      .ok (.mk (params0 (.Fixed w) (.Fixed 1) .Horizontal .Start) ⟨0, 0⟩ ⟨w, 1⟩
        [.mk (params0 .Grow (.Fixed 1) .Horizontal .Start) ⟨0, 0⟩ ⟨w / 3 + w % 3, Nat.min 1 w⟩ [],
         .mk (params0 .Grow (.Fixed 1) .Horizontal .Start) ⟨0, 0⟩ ⟨w / 3, Nat.min 1 w⟩ [],
         .mk (params0 .Grow (.Fixed 1) .Horizontal .Start) ⟨0, 0⟩ ⟨w / 3, Nat.min 1 w⟩ []]) := by
  unfold calculate_grow_sizes
  simp [c2fitTree, params0, growLoop, growIter, growScan, growScanGo, growDistribute,
    getSizeD, setSizeAt, toChildView, mapME, grow_sizes_leaf, hw, clamp0,
    U16Vec2.saturating_sub, u16vec2, U16Vec2.ZERO, U16Vec2.clampVec, axify,
    AxisSizes.from_u16vec2, AxisSizes.to_u16vec2, LayoutParams.cross_size,
    LayoutParams.main_size, Size.is_grow, TuiElement.layout_params, TuiElement.size,
    TuiElement.withSize, U16Vec2.add_def]

theorem mana_grow_leaf (g : Nat) (p : LayoutParams) (pos sz : U16Vec2) :
    Mana.calculate_grow_sizes (g+1) (.mk p pos sz []) = .ok (.mk p pos sz []) := by
  simp [Mana.calculate_grow_sizes, Mana.manaGrowLoop, Mana.sortByMain, Mana.manaWriteBack,
    mapME, List.enum]

theorem c2tree_mana_fit (f w : Nat) :
    Mana.calculate_fit_sizes (f+2) (c2tree w) = .ok (c2fitTree w) := by
  simp [Mana.calculate_fit_sizes, mapME, c2tree, c2fitTree, leaf0, params0, clamp0,
    Size.should_clamp, U16Vec2.saturating_sub, u16vec2, AxisSizes.increase, AxisSizes.pad,
    AxisSizes.to_u16vec2, TuiElement.withSize, TuiElement.size]

theorem c2tree_mana_grow (f w : Nat) :
    Mana.calculate_grow_sizes (f+2) (c2fitTree w) =
      .ok (.mk (params0 (.Fixed w) (.Fixed 1) .Horizontal .Start) ⟨0, 0⟩ ⟨w, 1⟩
        [.mk (params0 .Grow (.Fixed 1) .Horizontal .Start) ⟨0, 0⟩
           ⟨w / 3 + Nat.min (w % 3) 1, Nat.min 1 w⟩ [],
         .mk (params0 .Grow (.Fixed 1) .Horizontal .Start) ⟨0, 0⟩
           ⟨w / 3 + (w % 3 - 1), Nat.min 1 w⟩ [],
         .mk (params0 .Grow (.Fixed 1) .Horizontal .Start) ⟨0, 0⟩ ⟨w / 3, Nat.min 1 w⟩ []]) := by
  have h3 : w % 3 = 0 ∨ w % 3 = 1 ∨ w % 3 = 2 := by omega
  unfold Mana.calculate_grow_sizes
  rcases h3 with h3 | h3 | h3 <;>
    simp [c2fitTree, params0, Mana.manaGrowLoop, Mana.manaDistribute, Mana.manaRaise,
      Mana.sortByMain, Mana.sortInsert, Mana.manaWriteBack, Mana.listUpdateAt,
      List.enum, List.findIdx?, mana_grow_leaf, mapME, toChildView, clamp0,
      U16Vec2.saturating_sub, u16vec2, U16Vec2.ZERO, U16Vec2.clampVec, axify,
      AxisSizes.from_u16vec2, AxisSizes.to_u16vec2, LayoutParams.cross_size,
      LayoutParams.main_size, Size.is_grow, TuiElement.layout_params, TuiElement.size,
      TuiElement.withSize, U16Vec2.add_def, h3]

/-- C2, amended.  The two growth passes distribute differently, for a
`Fixed(w)` container whose three children are main-axis `Grow` with
content size zero.  In ratatui-elemental the all-equal branch REPLACES
each growing child's main size with `w / 3` and adds the ENTIRE remainder
`w % 3` to the first growing child in child order (11 gives 5, 3, 3),
refuting the claim's one-extra-unit-per-child distribution there.  In
mana-tui-elemental the final distribution ADDS `remaining / count` to
every growing entry and one extra unit to each of the first
`remaining % count` of them in child order (11 gives 4, 4, 3), exactly
the distribution the claim describes.  In both revisions the sizes sum to
the container's inner main size in this zero-content configuration. -/
theorem C2_growth_distribution_amended (f w : Nat) :
    (childWidthsOf (chainE (calculate_fit_sizes (f+2) (c2tree w)) (calculate_grow_sizes (f+2))) =
        .ok [w / 3 + w % 3, w / 3, w / 3] ∧
      (w / 3 + w % 3) + (w / 3) + (w / 3) = w) ∧
    (childWidthsOf (chainE (Mana.calculate_fit_sizes (f+2) (c2tree w))
          (Mana.calculate_grow_sizes (f+2))) =
        .ok [w / 3 + Nat.min (w % 3) 1, w / 3 + (w % 3 - 1), w / 3] ∧
      (w / 3 + Nat.min (w % 3) 1) + (w / 3 + (w % 3 - 1)) + (w / 3) = w) := by
  refine ⟨⟨?_, by omega⟩, ⟨?_, by
    have h3 : w % 3 = 0 ∨ w % 3 = 1 ∨ w % 3 = 2 := by omega
    rcases h3 with h3 | h3 | h3 <;> simp [h3, Nat.min_def] <;> omega⟩⟩
  · rw [c2tree_fit]
    by_cases hw : w = 0
    · subst hw
      simp [chainE, c2fitTree, params0, calculate_grow_sizes, growLoop, mapME, grow_sizes_leaf,
        toChildView, TuiElement.withSize, TuiElement.layout_params, TuiElement.size,
        LayoutParams.cross_size, Size.is_grow, axify, AxisSizes.from_u16vec2,
        U16Vec2.saturating_sub, u16vec2, U16Vec2.ZERO, U16Vec2.clampVec, U16Vec2.add_def,
        childWidthsOf, TuiElement.children]
    · rw [show chainE (Except.ok (c2fitTree w)) (calculate_grow_sizes (f+2)) =
          calculate_grow_sizes (f+2) (c2fitTree w) from rfl]
      rw [c2tree_grow f w hw]
      simp [childWidthsOf, TuiElement.size, TuiElement.children]
  · rw [c2tree_mana_fit]
    rw [show chainE (Except.ok (c2fitTree w)) (Mana.calculate_grow_sizes (f+2)) =
          Mana.calculate_grow_sizes (f+2) (c2fitTree w) from rfl]
    rw [c2tree_mana_grow]
    simp [childWidthsOf, TuiElement.size, TuiElement.children]

theorem chainE_ok (t : TuiElement) (f : TuiElement → Except LayoutErr TuiElement) :
    chainE (.ok t) f = f t := rfl

theorem chainE_error (e : LayoutErr) (f : TuiElement → Except LayoutErr TuiElement) :
    chainE (.error e) f = .error e := rfl

/-- The position pass leaves a childless node untouched, whatever its
justify policy (the `is_empty` guards cover the multi-child policies). -/
theorem positions_leaf (g : Nat) (p : LayoutParams) (pos sz : U16Vec2) :
    calculate_positions (g+1) (.mk p pos sz []) = .ok (.mk p pos sz []) := by
  unfold calculate_positions
  cases hj : p.main_justify <;>
    simp [hj, alignFor, positionChildren, mapME]

/-- The growth pass leaves a node with a single non-growing leaf child
untouched. -/
theorem grow_one_nongrow_child (g : Nat) (p cp : LayoutParams) (pos sz cpos csz : U16Vec2)
    (hm : (cp.main_size p.direction).is_grow = false)
    (hc : (cp.cross_size p.direction).is_grow = false) :
    calculate_grow_sizes (g+2) (.mk p pos sz [.mk cp cpos csz []]) =
      .ok (.mk p pos sz [.mk cp cpos csz []]) := by
  unfold calculate_grow_sizes
  have hloop : ∀ r, growLoop p.direction (g+1+1) [⟨cp, csz⟩] r =
      .ok [(⟨cp, csz⟩ : ChildView)] := fun r =>
    growLoop_no_grow p.direction (g+1) _ r (by simp [hm])
  simp [hc, TuiElement.layout_params, hloop, toChildView, TuiElement.size,
    TuiElement.withSize, mapME, grow_sizes_leaf]

theorem c4tree_fit (f w c : Nat) (j : Justify) :
    calculate_fit_sizes (f+2) (c4tree w c j) =
      .ok (.mk (params0 (.Fixed w) (.Fixed 1) .Horizontal j) ⟨0, 0⟩ ⟨w, 1⟩
        [.mk (params0 (.Fixed c) (.Fixed 1) .Horizontal .Start) ⟨0, 0⟩
          ⟨Nat.min c w, Nat.min 1 w⟩ []]) := by
  simp [calculate_fit_sizes, mapME, c4tree, leaf0, params0, clamp0,
    Size.should_clamp, U16Vec2.saturating_sub, u16vec2, AxisSizes.increase, AxisSizes.pad,
    AxisSizes.to_u16vec2, TuiElement.withSize, TuiElement.size]

/-- C4, amended.  With zero children, every justify policy completes and
leaves the node untouched (second conjunct).  With exactly one child the
policies do NOT all degenerate to `Start`: `Start` puts the child at
offset 0 and `End` at `remaining`, but `Center` and `SpaceAround` place it
at `remaining / 2`, `SpaceEvenly` at `2 * (remaining / 4)`, and
`SpaceBetween` divides `remaining` by `children.len() - 1 = 0` and fails
(panics in Rust). -/
theorem C4_degenerate_justify_amended (f w c : Nat) (j : Justify) :
    childPosXsOf (calculate_layout (f+2) (c4tree w c j)) =
      (match j with
       | .SpaceBetween => .error .divByZero
       | .Start => .ok [0]
       | .Center => .ok [(w - Nat.min c w) / 2]
       | .End => .ok [w - Nat.min c w]
       | .SpaceAround => .ok [(w - Nat.min c w) / 2]
       | .SpaceEvenly => .ok [(w - Nat.min c w) / 4 * 2]) ∧
    calculate_positions (f+1) (c4leaf w j) = .ok (c4leaf w j) := by
  constructor
  · unfold calculate_layout
    rw [c4tree_fit, chainE_ok,
      grow_one_nongrow_child f _ _ _ _ _ _
        (by simp [params0, LayoutParams.main_size, Size.is_grow])
        (by simp [params0, LayoutParams.cross_size, Size.is_grow]),
      chainE_ok]
    cases j <;>
      simp [calculate_positions, alignFor, positionChildren, mapME, positions_leaf,
        params0, axify, AxisSizes.from_u16vec2, AxisSizes.shrink, increase_axis,
        TuiElement.size, TuiElement.children, TuiElement.layout_params, TuiElement.position,
        TuiElement.withPosition, childPosXsOf, U16Vec2.add_def, u16vec2]
  · exact positions_leaf f _ _ _

/-- C5, amended.  What the two fit passes actually clamp (zero padding
here, so the inner width equals the parent's width).  Ratatui-elemental:
when the PARENT's width policy is `Fixed(n)`, every child — whatever the
child's own policies — has BOTH its width and its height clamped into
`[0, n]` after recursion (first conjunct); when the parent's width policy
is `Fit`, no clamp at all is applied, even to a `Fixed`-policy child, and
even though the parent's height is `Fixed(m)` (second conjunct: there
both clamps are keyed on the parent's width policy and both use the inner
width as the bound).  Mana-tui-elemental: the x clamp is keyed on the
parent's width policy and the y clamp on the parent's HEIGHT policy, but
BOTH are bounded by the parent's inner WIDTH `max_size.x`: under a
`Fixed(n) × Fixed(m)` parent both axes are clamped into `[0, n]` (third
conjunct), and under a `Fit × Fixed(m)` parent the height is still
clamped — keyed on the `Fixed` height — against the parent's CURRENT
width `sz.x` (fourth conjunct; this stale-width read is what breaks mana
idempotence in C9).  In neither revision is the child's own policy
consulted, and in neither is the inner height the bound. -/
theorem C5_fit_clamp_policies_amended (f n m : Nat) (c : TuiElement)
    (pos sz : U16Vec2) :
    (childSizesOf (calculate_fit_sizes (f+1)
        (.mk ⟨.Fixed n, .Fixed m, .Horizontal, ⟨0, 0, 0, 0⟩, 0, .Start⟩ pos sz [c])) =
      (match calculate_fit_sizes f c with
       | .error e => .error e
       | .ok c' => .ok [u16vec2 (Nat.min c'.size.x n) (Nat.min c'.size.y n)])) ∧
    (childSizesOf (calculate_fit_sizes (f+1)
        (.mk ⟨.Fit, .Fixed m, .Horizontal, ⟨0, 0, 0, 0⟩, 0, .Start⟩ pos sz [c])) =
      (match calculate_fit_sizes f c with
       | .error e => .error e
       | .ok c' => .ok [c'.size])) ∧
    (childSizesOf (Mana.calculate_fit_sizes (f+1)
        (.mk ⟨.Fixed n, .Fixed m, .Horizontal, ⟨0, 0, 0, 0⟩, 0, .Start⟩ pos sz [c])) =
      (match Mana.calculate_fit_sizes f c with
       | .error e => .error e
       | .ok c' => .ok [u16vec2 (Nat.min c'.size.x n) (Nat.min c'.size.y n)])) ∧
    (childSizesOf (Mana.calculate_fit_sizes (f+1)
        (.mk ⟨.Fit, .Fixed m, .Horizontal, ⟨0, 0, 0, 0⟩, 0, .Start⟩ pos sz [c])) =
      (match Mana.calculate_fit_sizes f c with
       | .error e => .error e
       | .ok c' => .ok [u16vec2 c'.size.x (Nat.min c'.size.y sz.x)])) := by
  refine ⟨?_, ?_, ?_, ?_⟩ <;>
  · first
    | (cases hc : calculate_fit_sizes f c with
       | error e =>
         simp [calculate_fit_sizes, hc, mapME, clamp0, Size.should_clamp,
           U16Vec2.saturating_sub, u16vec2, TuiElement.withSize, TuiElement.size,
           childSizesOf, TuiElement.children]
       | ok c' =>
         cases c' with
         | mk cp cpos csz cch =>
           simp [calculate_fit_sizes, hc, mapME, clamp0, Size.should_clamp,
             U16Vec2.saturating_sub, u16vec2, TuiElement.withSize, TuiElement.size,
             childSizesOf, TuiElement.children])
    | (cases hc : Mana.calculate_fit_sizes f c with
       | error e =>
         simp [Mana.calculate_fit_sizes, hc, mapME, clamp0, Size.should_clamp,
           U16Vec2.saturating_sub, u16vec2, TuiElement.withSize, TuiElement.size,
           childSizesOf, TuiElement.children]
       | ok c' =>
         cases c' with
         | mk cp cpos csz cch =>
           simp [Mana.calculate_fit_sizes, hc, mapME, clamp0, Size.should_clamp,
             U16Vec2.saturating_sub, u16vec2, TuiElement.withSize, TuiElement.size,
             childSizesOf, TuiElement.children])

theorem c6tree_fit (f w c : Nat) (h1 : 0 < w - c) (h2 : w - c < c) :
    calculate_fit_sizes (f+3) (c6tree w c) =
      .ok (.mk (params0 (.Fixed w) (.Fixed 1) .Horizontal .Start) ⟨0, 0⟩ ⟨w, 1⟩
        [.mk (params0 .Grow (.Fixed 1) .Horizontal .Start) ⟨0, 0⟩ ⟨0, 1⟩ [],
         .mk (params0 .Grow (.Fixed 1) .Horizontal .Start) ⟨0, 0⟩ ⟨c, 1⟩
           [.mk (params0 (.Fixed c) (.Fixed 1) .Horizontal .Start) ⟨0, 0⟩ ⟨c, 1⟩ []]]) := by
  have hminc : Nat.min c w = c := Nat.min_eq_left (by omega)
  have hmin1 : Nat.min 1 w = 1 := Nat.min_eq_left (by omega)
  simp [calculate_fit_sizes, mapME, c6tree, leaf0, params0, clamp0, hminc, hmin1,
    Size.should_clamp, U16Vec2.saturating_sub, u16vec2, AxisSizes.increase, AxisSizes.pad,
    AxisSizes.to_u16vec2, TuiElement.withSize, TuiElement.size]

/-- C6, amended.  The subtractions of the fit and position passes and most
of the growth pass saturate (they are `saturating_sub`), but the growth
pass's catch-up step computes `remaining_size - (bsize - asize)` with the
derived (plain, panicking) `u16` subtraction: whenever the two smallest
`Grow` children differ by more than the remaining space — here content
widths 0 and c inside a `Fixed(w)` parent with `0 < w - c < c` — the
subtraction underflows and `calculate_grow_sizes` fails instead of
producing a saturated non-negative value. -/
theorem C6_growth_subtraction_underflow_amended (f w c : Nat)
    (h1 : 0 < w - c) (h2 : w - c < c) :
    layoutErrOf (chainE (calculate_fit_sizes (f+3) (c6tree w c)) (calculate_grow_sizes (f+3))) =
      some .underflow := by
  rw [c6tree_fit f w c h1 h2, chainE_ok]
  have h3 : Nat.min (w - c) w = w - c := Nat.min_eq_left (by omega)
  have h4 : ¬ (w - c = 0) := by omega
  have h5 : ¬ (c = 0) := by omega
  have h6 : ¬ (c ≤ w - c) := by omega
  have h7 : 0 < c := by omega
  have h8 : ¬ (0 = c) := by omega
  unfold calculate_grow_sizes
  simp [params0, growLoop, growIter, growScan, growScanGo, getSizeD,
    toChildView, h3, h4, h5, h6, h7, h8, clamp0,
    U16Vec2.saturating_sub, u16vec2, U16Vec2.ZERO, U16Vec2.clampVec, axify,
    AxisSizes.from_u16vec2, AxisSizes.to_u16vec2, AxisSizes.csub, AxisSizes.min,
    LayoutParams.cross_size, LayoutParams.main_size, Size.is_grow,
    TuiElement.layout_params, TuiElement.size, TuiElement.withSize, U16Vec2.add_def,
    layoutErrOf]

set_option maxHeartbeats 1000000 in
theorem C6_growth_subtraction_underflow_amended_witness :
    0 < 8 - 5 ∧ 8 - 5 < 5 ∧
    layoutErrOf (chainE (calculate_fit_sizes 7 (c6tree 8 5)) (calculate_grow_sizes 7)) =
      some .underflow := by
  refine ⟨by decide, by decide, ?_⟩
  exact (C6_growth_subtraction_underflow_amended 4 8 5 (by decide) (by decide))

theorem renderChildFails (store : List (Option RenderEl)) (f c : Nat) (area : Rect)
    (h : storeGet store c = none) :
    ∃ e, render store f c area = .error e := by
  cases f with
  | zero => exact ⟨.fuel, rfl⟩
  | succ f => exact ⟨.missingElement, by simp [render, h]⟩

theorem mapMR_error_of_mem (g : α → Except RenderErr β) (l : List α) (x : α)
    (hx : x ∈ l) (hex : ∃ e0, g x = .error e0) : ∃ e, mapMR g l = .error e := by
  induction l with
  | nil => simp at hx
  | cons a as ih =>
    cases hga : g a with
    | error e => exact ⟨e, by simp [mapMR, hga]⟩
    | ok y =>
      rcases List.mem_cons.mp hx with hxa | hxs
      · subst hxa
        obtain ⟨e0, he0⟩ := hex
        rw [hga] at he0
        exact absurd he0 (by simp)
      · obtain ⟨e, he⟩ := ih hxs
        exact ⟨e, by simp [mapMR, hga, he]⟩

/-- C7, amended.  The render walk is strict, not lenient: a root handle
that misses the store fails the whole call with a lookup error (first
conjunct; the source panics on `self[root]`), and a single dangling child
handle anywhere in a node's children list aborts the entire render call
with an error as well (second conjunct) — no node is ever treated as
zero-area. -/
theorem C7_render_strict_amended (store : List (Option RenderEl)) (f i : Nat) (area : Rect) :
    (storeGet store i = none → render store (f+1) i area = .error .missingElement) ∧
    (∀ el c, storeGet store i = some el → el.widget_found = true →
      c ∈ el.children → storeGet store c = none →
      ∃ e, render store (f+1) i area = .error e) := by
  constructor
  · intro h
    simp [render, h]
  · intro el c hel hw hc hcnone
    obtain ⟨e, he⟩ :=
      mapMR_error_of_mem (fun c => render store f c (split_area el area)) el.children c hc
        (renderChildFails store f c (split_area el area) hcnone)
    exact ⟨e, by simp [render, hel, hw, he]⟩

set_option maxHeartbeats 1000000 in
theorem C7_render_strict_amended_witness :
    render c7store 4 1 ⟨0, 0, 20, 20⟩ = .error .missingElement ∧
    ∃ e, render c7store 4 0 ⟨0, 0, 20, 20⟩ = .error e := by
  constructor
  · exact (C7_render_strict_amended c7store 3 1 ⟨0, 0, 20, 20⟩).1 (by decide)
  · exact (C7_render_strict_amended c7store 3 0 ⟨0, 0, 20, 20⟩).2
      ⟨⟨0, 0⟩, ⟨10, 10⟩, true, [1]⟩ 1 (by decide) (by decide) (by decide) (by decide)

theorem fit_root_fixed (fuel n m : Nat) (t t' : TuiElement)
    (h : calculate_fit_sizes fuel t = .ok t') :
    (t.layout_params.width = .Fixed n → t'.size.x = n) ∧
    (t.layout_params.height = .Fixed m → t'.size.y = m) := by
  cases fuel with
  | zero => exact absurd h (by simp [calculate_fit_sizes])
  | succ f =>
    cases t with
    | mk p pos sz ch =>
      rw [calculate_fit_sizes] at h
      split at h
      · exact absurd h (by simp)
      · simp only [Except.ok.injEq] at h
        subst h
        constructor
        · intro hw
          simp [TuiElement.layout_params] at hw
          simp [TuiElement.size, hw]
        · intro hh
          simp [TuiElement.layout_params] at hh
          simp [TuiElement.size, hh]

theorem grow_root_size (fuel : Nat) (t t' : TuiElement)
    (h : calculate_grow_sizes fuel t = .ok t') :
    t'.size = t.size ∧ t'.position = t.position ∧ t'.layout_params = t.layout_params := by
  cases fuel with
  | zero => exact absurd h (by simp [calculate_grow_sizes])
  | succ f =>
    cases t with
    | mk p pos sz ch =>
      rw [calculate_grow_sizes] at h
      generalize growLoop p.direction (f+1) (List.map toChildView _) _ = r1 at h
      cases r1 with
      | error e => exact absurd h (by simp)
      | ok views =>
        simp only [] at h
        generalize mapME (fun c => calculate_grow_sizes f c) _ = r2 at h
        cases r2 with
        | error e => exact absurd h (by simp)
        | ok ch3 =>
          simp only [Except.ok.injEq] at h
          subst h
          exact ⟨rfl, rfl, rfl⟩

theorem positions_root_size (fuel : Nat) (t t' : TuiElement)
    (h : calculate_positions fuel t = .ok t') :
    t'.size = t.size ∧ t'.position = t.position ∧ t'.layout_params = t.layout_params := by
  cases fuel with
  | zero => exact absurd h (by simp [calculate_positions])
  | succ f =>
    cases t with
    | mk p pos sz ch =>
      rw [calculate_positions] at h
      generalize alignFor p.main_justify _ _ = r1 at h
      cases r1 with
      | error e => exact absurd h (by simp)
      | ok align =>
        simp only [] at h
        generalize mapME (fun c => calculate_positions f c) _ = r2 at h
        cases r2 with
        | error e => exact absurd h (by simp)
        | ok ch2 =>
          simp only [Except.ok.injEq] at h
          subst h
          exact ⟨rfl, rfl, rfl⟩

/-- C8, amended.  Fixed-size invariance holds for the ROOT node: a root
with `width_policy = Fixed(n)` measures exactly `n` wide after
`calculate_layout` (and symmetrically for a `Fixed(m)` height), whatever
its children declare.  A non-root `Fixed(n)` child does not enjoy this:
inside a `Fixed`-width parent it is clamped to the parent's inner width
(see the counterexample). -/
theorem C8_root_fixed_size_amended (fuel n m : Nat) (t t' : TuiElement)
    (h : calculate_layout fuel t = .ok t') :
    (t.layout_params.width = .Fixed n → t'.size.x = n) ∧
    (t.layout_params.height = .Fixed m → t'.size.y = m) := by
  unfold calculate_layout at h
  cases hf : calculate_fit_sizes fuel t with
  | error e => rw [hf, chainE_error, chainE_error] at h; exact absurd h (by simp)
  | ok t1 =>
    rw [hf, chainE_ok] at h
    cases hg : calculate_grow_sizes fuel t1 with
    | error e => rw [hg, chainE_error] at h; exact absurd h (by simp)
    | ok t2 =>
      rw [hg, chainE_ok] at h
      have h1 := fit_root_fixed fuel n m t t1 hf
      have h2 := (grow_root_size fuel t1 t2 hg).1
      have h3 := (positions_root_size fuel t2 t' h).1
      constructor
      · intro hw
        rw [h3, h2, h1.1 hw]
      · intro hh
        rw [h3, h2, h1.2 hh]

set_option maxHeartbeats 4000000 in
theorem C8_root_fixed_size_amended_witness :
    (c8tree.layout_params.width = .Fixed 5 → c8res.size.x = 5) ∧
    (c8tree.layout_params.height = .Fixed 1 → c8res.size.y = 1) :=
  C8_root_fixed_size_amended 4 5 1 c8tree c8res (by rfl)

theorem skeleton_mk (p : LayoutParams) (pos sz : U16Vec2) (ch : List TuiElement) :
    skeleton (.mk p pos sz ch) = .mk p (ch.map skeleton) := by
  rw [skeleton]
  rw [List.attach_map_val ch skeleton]

theorem measured_mk (p : LayoutParams) (pos sz : U16Vec2) (ch : List TuiElement) :
    measured (.mk p pos sz ch) = .mk p sz (ch.map measured) := by
  rw [measured]
  rw [List.attach_map_val ch measured]

theorem skeleton_withSize (t : TuiElement) (v : U16Vec2) :
    skeleton (t.withSize v) = skeleton t := by
  cases t
  simp [TuiElement.withSize, skeleton_mk]

theorem skeleton_withPosition (t : TuiElement) (v : U16Vec2) :
    skeleton (t.withPosition v) = skeleton t := by
  cases t
  simp [TuiElement.withPosition, skeleton_mk]

theorem measured_withPosition (t : TuiElement) (v : U16Vec2) :
    measured (t.withPosition v) = measured t := by
  cases t
  simp [TuiElement.withPosition, measured_mk]

/-- A successful `mapME` whose function preserves skeletons pointwise
preserves the skeleton list. -/
theorem mapME_ok_skeleton (g : TuiElement → Except LayoutErr TuiElement)
    (l l' : List TuiElement) (h : mapME g l = .ok l')
    (hg : ∀ c y, c ∈ l → g c = .ok y → skeleton y = skeleton c) :
    l'.map skeleton = l.map skeleton := by
  induction l generalizing l' with
  | nil =>
    simp [mapME] at h
    subst h
    rfl
  | cons a as ih =>
    rw [mapME] at h
    cases hga : g a with
    | error e => rw [hga] at h; exact absurd h (by simp)
    | ok y =>
      rw [hga] at h
      cases hmas : mapME g as with
      | error e => rw [hmas] at h; exact absurd h (by simp)
      | ok ys =>
        rw [hmas] at h
        simp only [Except.ok.injEq] at h
        subst h
        have h1 := hg a y (by simp) hga
        have h2 := ih ys hmas (fun c y hc hgc => hg c y (by simp [hc]) hgc)
        simp [h1, h2]

theorem setSizeAt_length (l : List ChildView) (i : Nat) (v : U16Vec2) :
    (setSizeAt l i v).length = l.length := by
  simp [setSizeAt]

theorem growDistribute_length (dir : Direction) (q r : Nat) (l : List ChildView) (b : Bool) :
    (growDistribute dir q r l b).length = l.length := by
  induction l generalizing b with
  | nil => rfl
  | cons c cs ih =>
    rw [growDistribute]
    by_cases hg : (c.layout_params.main_size dir).is_grow = true <;>
      simp [hg, ih]

theorem growIter_length (dir : Direction) (l : List ChildView) (r : AxisSizes) :
    (∀ l', growIter dir l r = .ok (.brk l') → l'.length = l.length) ∧
    (∀ l' r', growIter dir l r = .ok (.cont l' r') → l'.length = l.length) := by
  rw [growIter]
  split
  · refine ⟨?_, ?_⟩
    · intro l' h
      simp only [Except.ok.injEq, GrowIterOut.brk.injEq] at h
      subst h
      exact growDistribute_length _ _ _ _ _
    · intro l' r' h
      simp at h
  · constructor
    · intro l' h
      split at h
      · simp only [] at h
        split at h
        · simp at h
        · split at h
          · simp at h
          · split at h
            · simp at h
            · simp at h
      · simp only [Except.ok.injEq, GrowIterOut.brk.injEq] at h
        subst h
        simp [setSizeAt_length]
      · simp only [Except.ok.injEq, GrowIterOut.brk.injEq] at h
        subst h
        rfl
      · simp at h
    · intro l' r' h
      split at h
      · simp only [] at h
        split at h
        · simp at h
        · split at h
          · simp at h
          · split at h
            · simp at h
            · simp only [Except.ok.injEq, GrowIterOut.cont.injEq] at h
              obtain ⟨h1, -⟩ := h
              subst h1
              simp [setSizeAt_length]
      · simp at h
      · simp at h
      · simp at h

theorem growLoop_length (dir : Direction) (fuel : Nat) (l l' : List ChildView)
    (r : AxisSizes) (h : growLoop dir fuel l r = .ok l') : l'.length = l.length := by
  induction fuel generalizing l l' r with
  | zero =>
    rw [growLoop] at h
    split at h
    · simp only [Except.ok.injEq] at h; subst h; rfl
    · simp at h
  | succ f ih =>
    rw [growLoop] at h
    split at h
    · simp only [Except.ok.injEq] at h; subst h; rfl
    · split at h
      · simp at h
      · rename_i heq
        simp only [Except.ok.injEq] at h
        subst h
        exact (growIter_length dir l r).1 _ heq
      · rename_i l2 r2 heq
        rw [ih l2 l' r2 h]
        exact (growIter_length dir l r).2 _ _ heq

theorem zipWith_withSize_skeleton (l : List TuiElement) (v : List ChildView)
    (hlen : v.length = l.length) :
    (List.zipWith (fun c w => c.withSize w.size) l v).map skeleton = l.map skeleton := by
  induction l generalizing v with
  | nil => simp
  | cons a as ih =>
    cases v with
    | nil => simp at hlen
    | cons b bs =>
      simp only [List.zipWith_cons_cons, List.map_cons, skeleton_withSize]
      rw [ih bs (by simpa using hlen)]

theorem crossAdjust_skeleton (p : LayoutParams) (ms : U16Vec2) (ch : List TuiElement) :
    (ch.map (fun c =>
      if (c.layout_params.cross_size p.direction).is_grow = true then
        let s := AxisSizes.from_u16vec2 c.size p.direction
        let s := { s with cross_axis := (axify ms p.direction).cross_axis }
        c.withSize (s.to_u16vec2 p.direction)
      else c)).map skeleton = ch.map skeleton := by
  rw [List.map_map]
  apply List.map_congr_left
  intro c _
  by_cases hg : (c.layout_params.cross_size p.direction).is_grow = true <;>
    simp [hg, skeleton_withSize]

/-- Pass 1 never changes the skeleton, the root position or the root
params. -/
theorem fit_skeleton (fuel : Nat) (t t' : TuiElement)
    (h : calculate_fit_sizes fuel t = .ok t') :
    skeleton t' = skeleton t ∧ t'.position = t.position := by
  induction fuel generalizing t t' with
  | zero => exact absurd h (by simp [calculate_fit_sizes])
  | succ f ih =>
    cases t with
    | mk p pos sz ch =>
      rw [calculate_fit_sizes] at h
      split at h
      · exact absurd h (by simp)
      · rename_i ch' heq
        simp only [Except.ok.injEq] at h
        subst h
        refine ⟨?_, rfl⟩
        rw [skeleton_mk, skeleton_mk]
        rw [mapME_ok_skeleton _ ch ch' heq (by
          intro c y hc hy
          revert hy
          cases hfc : calculate_fit_sizes f c with
          | error e => intro hy; simp at hy
          | ok c' =>
            intro hy
            simp only [Except.ok.injEq] at hy
            subst hy
            simp only [skeleton_withSize]
            exact (ih c c' hfc).1)]

/-- Pass 2 never changes the skeleton or any position. -/
theorem grow_skeleton (fuel : Nat) (t t' : TuiElement)
    (h : calculate_grow_sizes fuel t = .ok t') :
    skeleton t' = skeleton t := by
  induction fuel generalizing t t' with
  | zero => exact absurd h (by simp [calculate_grow_sizes])
  | succ f ih =>
    cases t with
    | mk p pos sz ch =>
      rw [calculate_grow_sizes] at h
      generalize hgl : growLoop p.direction (f+1) (List.map toChildView _) _ = r1 at h
      cases r1 with
      | error e => exact absurd h (by simp)
      | ok views =>
        simp only [] at h
        generalize hmm : mapME (fun c => calculate_grow_sizes f c) _ = r2 at h
        cases r2 with
        | error e => exact absurd h (by simp)
        | ok ch3 =>
          simp only [Except.ok.injEq] at h
          subst h
          rw [skeleton_mk, skeleton_mk]
          have hlen := growLoop_length _ _ _ _ _ hgl
          rw [List.length_map] at hlen
          have h2 := mapME_ok_skeleton _ _ ch3 hmm (fun c y hc hy => ih c y hy)
          rw [h2, zipWith_withSize_skeleton _ _ (by simp [hlen]), crossAdjust_skeleton]

theorem positionChildren_skeleton (dir : Direction) (padding : Padding) (gap : Nat)
    (parentPos : U16Vec2) (l : List TuiElement) (align : AlignValues) :
    (positionChildren dir padding gap parentPos l align).map skeleton = l.map skeleton := by
  induction l generalizing align with
  | nil => rfl
  | cons c cs ih =>
    simp only [positionChildren, List.map_cons, skeleton_withPosition]
    rw [ih]

/-- Pass 3 never changes the skeleton, the sizes, or the root position. -/
theorem pos_skeleton (fuel : Nat) (t t' : TuiElement)
    (h : calculate_positions fuel t = .ok t') :
    skeleton t' = skeleton t := by
  induction fuel generalizing t t' with
  | zero => exact absurd h (by simp [calculate_positions])
  | succ f ih =>
    cases t with
    | mk p pos sz ch =>
      rw [calculate_positions] at h
      generalize alignFor p.main_justify _ _ = r1 at h
      cases r1 with
      | error e => exact absurd h (by simp)
      | ok align =>
        simp only [] at h
        generalize hmm : mapME (fun c => calculate_positions f c) _ = r2 at h
        cases r2 with
        | error e => exact absurd h (by simp)
        | ok ch2 =>
          simp only [Except.ok.injEq] at h
          subst h
          rw [skeleton_mk, skeleton_mk]
          have h2 := mapME_ok_skeleton _ _ ch2 hmm (fun c y hc hy => ih c y hy)
          rw [h2, positionChildren_skeleton]

theorem layout_skeleton (fuel : Nat) (t t' : TuiElement)
    (h : calculate_layout fuel t = .ok t') :
    skeleton t' = skeleton t ∧ t'.position = t.position := by
  unfold calculate_layout at h
  cases hf : calculate_fit_sizes fuel t with
  | error e => rw [hf, chainE_error, chainE_error] at h; exact absurd h (by simp)
  | ok t1 =>
    rw [hf, chainE_ok] at h
    cases hg : calculate_grow_sizes fuel t1 with
    | error e => rw [hg, chainE_error] at h; exact absurd h (by simp)
    | ok t2 =>
      rw [hg, chainE_ok] at h
      obtain ⟨hs1, hp1⟩ := fit_skeleton fuel t t1 hf
      obtain ⟨hsz2, hp2, -⟩ := grow_root_size fuel t1 t2 hg
      obtain ⟨hsz3, hp3, -⟩ := positions_root_size fuel t2 t' h
      have hs2 := grow_skeleton fuel t1 t2 hg
      have hs3 := pos_skeleton fuel t2 t' h
      exact ⟨by rw [hs3, hs2, hs1], by rw [hp3, hp2, hp1]⟩

/-- C10.  Frame effect of layout: a successful `calculate_layout` changes
only the computed `size` and `position` fields — the skeleton (every
node's width/height policies, direction, padding, gap, justify policy and
children structure) is exactly preserved, and the root node's own
position is never written. -/
theorem C10_layout_frame_effect (fuel : Nat) (t t' : TuiElement)
    (h : calculate_layout fuel t = .ok t') :
    skeleton t' = skeleton t ∧ t'.position = t.position :=
  layout_skeleton fuel t t' h

set_option maxHeartbeats 4000000 in
theorem C10_layout_frame_effect_witness :
    skeleton c8res = skeleton c8tree ∧ c8res.position = c8tree.position :=
  C10_layout_frame_effect 4 c8tree c8res (by rfl)

theorem calculate_fit_sizes_succ (f : Nat) (p : LayoutParams) (pos sz : U16Vec2)
    (ch : List TuiElement) :
    calculate_fit_sizes (f+1) (.mk p pos sz ch) =
      match mapME (fitChild f p (fitMaxSize p sz)) ch with
      | .error e => .error e
      | .ok ch' => .ok (fitAssemble p pos sz ch.length ch') := rfl

theorem calculate_grow_sizes_succ (f : Nat) (p : LayoutParams) (pos sz : U16Vec2)
    (ch : List TuiElement) :
    calculate_grow_sizes (f+1) (.mk p pos sz ch) =
      match growLoop p.direction (f+1)
          ((growCrossAdjust p (growMaxSize p sz) ch).map toChildView)
          (growRemaining p sz ch) with
      | .error e => .error e
      | .ok views =>
        match mapME (fun c => calculate_grow_sizes f c)
            (List.zipWith (fun c v => c.withSize v.size)
              (growCrossAdjust p (growMaxSize p sz) ch) views) with
        | .error e => .error e
        | .ok ch3 => .ok (.mk p pos sz ch3) := rfl

theorem calculate_positions_succ (f : Nat) (p : LayoutParams) (pos sz : U16Vec2)
    (ch : List TuiElement) :
    calculate_positions (f+1) (.mk p pos sz ch) =
      match alignFor p.main_justify (posRemaining p sz ch) ch.length with
      | .error e => .error e
      | .ok align =>
        match mapME (fun c => calculate_positions f c)
            (positionChildren p.direction p.padding p.gap pos ch align) with
        | .error e => .error e
        | .ok ch2 => .ok (.mk p pos sz ch2) := rfl

theorem TuiElement.withPosition_size (t : TuiElement) (v : U16Vec2) :
    (t.withPosition v).size = t.size := by
  cases t; rfl

theorem TuiElement.withPosition_position (t : TuiElement) (v : U16Vec2) :
    (t.withPosition v).position = v := by
  cases t; rfl

theorem measured_eq_size {t1 t2 : TuiElement} (h : measured t1 = measured t2) :
    t1.size = t2.size := by
  cases t1; cases t2
  rw [measured_mk, measured_mk] at h
  simp only [MTree.mk.injEq] at h
  exact h.2.1

theorem measured_eq_params {t1 t2 : TuiElement} (h : measured t1 = measured t2) :
    t1.layout_params = t2.layout_params := by
  cases t1; cases t2
  rw [measured_mk, measured_mk] at h
  simp only [MTree.mk.injEq] at h
  exact h.1

theorem measured_eq_toChildView {t1 t2 : TuiElement} (h : measured t1 = measured t2) :
    toChildView t1 = toChildView t2 := by
  simp [toChildView, measured_eq_size h, measured_eq_params h]

theorem measured_withSize_congr {t1 t2 : TuiElement} (h : measured t1 = measured t2)
    (v : U16Vec2) : measured (t1.withSize v) = measured (t2.withSize v) := by
  cases t1; cases t2
  rw [measured_mk, measured_mk] at h
  simp only [MTree.mk.injEq] at h
  simp only [TuiElement.withSize, measured_mk, MTree.mk.injEq]
  exact ⟨h.1, by trivial, h.2.2⟩

theorem forall2_of_map_eq {α β : Type} (f : α → β) (l1 l2 : List α)
    (h : l1.map f = l2.map f) : List.Forall₂ (fun a b => f a = f b) l1 l2 := by
  induction l1 generalizing l2 with
  | nil => cases l2 with
    | nil => exact .nil
    | cons b bs => simp at h
  | cons a as ih =>
    cases l2 with
    | nil => simp at h
    | cons b bs =>
      simp only [List.map_cons, List.cons.injEq] at h
      exact .cons h.1 (ih bs h.2)

theorem map_congr_forall2 {α β : Type} {g1 g2 : α → β} {l1 l2 : List α}
    (h : List.Forall₂ (fun a b => g1 a = g2 b) l1 l2) : l1.map g1 = l2.map g2 := by
  induction h with
  | nil => rfl
  | cons hab _ ih => simp [hab, ih]

theorem map_measured_eq_map_size {l1 l2 : List TuiElement}
    (h : l1.map measured = l2.map measured) :
    l1.map TuiElement.size = l2.map TuiElement.size :=
  map_congr_forall2 ((forall2_of_map_eq measured l1 l2 h).imp
    (fun _ _ hab => measured_eq_size hab))

theorem map_measured_eq_map_cv {l1 l2 : List TuiElement}
    (h : l1.map measured = l2.map measured) :
    l1.map toChildView = l2.map toChildView :=
  map_congr_forall2 ((forall2_of_map_eq measured l1 l2 h).imp
    (fun _ _ hab => measured_eq_toChildView hab))

theorem map_measured_length {l1 l2 : List TuiElement}
    (h : l1.map measured = l2.map measured) : l1.length = l2.length := by
  have := congrArg List.length h
  simpa using this

/-- Two error-propagating maps over pointwise measured-related functions
either fail with the same error or succeed with measured-equal lists. -/
theorem mapME_rel_measured {g1 g2 : TuiElement → Except LayoutErr TuiElement}
    {l1 l2 : List TuiElement}
    (h : List.Forall₂ (fun a b => exceptMeasured (g1 a) = exceptMeasured (g2 b)) l1 l2) :
    (∃ e, mapME g1 l1 = .error e ∧ mapME g2 l2 = .error e) ∨
    (∃ r1 r2, mapME g1 l1 = .ok r1 ∧ mapME g2 l2 = .ok r2 ∧
      r1.map measured = r2.map measured) := by
  induction h with
  | nil => exact .inr ⟨[], [], rfl, rfl, rfl⟩
  | cons hab htail ih =>
    rename_i a b as bs
    cases hga : g1 a with
    | error e =>
      rw [hga] at hab
      cases hgb : g2 b with
      | error e' =>
        rw [hgb] at hab
        simp only [exceptMeasured, Except.error.injEq] at hab
        subst hab
        exact .inl ⟨e, by simp [mapME, hga], by simp [mapME, hgb]⟩
      | ok y => rw [hgb] at hab; simp [exceptMeasured] at hab
    | ok y1 =>
      rw [hga] at hab
      cases hgb : g2 b with
      | error e => rw [hgb] at hab; simp [exceptMeasured] at hab
      | ok y2 =>
        rw [hgb] at hab
        simp only [exceptMeasured, Except.ok.injEq] at hab
        rcases ih with ⟨e, h1, h2⟩ | ⟨r1, r2, h1, h2, h3⟩
        · exact .inl ⟨e, by simp [mapME, hga, h1], by simp [mapME, hgb, h2]⟩
        · exact .inr ⟨y1 :: r1, y2 :: r2, by simp [mapME, hga, h1],
            by simp [mapME, hgb, h2], by simp [hab, h3]⟩

theorem mapME_congr_eq {g1 g2 : TuiElement → Except LayoutErr TuiElement}
    {l1 l2 : List TuiElement}
    (h : List.Forall₂ (fun a b => g1 a = g2 b) l1 l2) :
    mapME g1 l1 = mapME g2 l2 := by
  induction h with
  | nil => rfl
  | cons hab _ ih =>
    rw [mapME, mapME, hab, ih]

/-- When the parent's width policy clamps, the clamp bound does not depend
on the parent's incoming size (the width is then `Fixed`). -/
theorem fitMaxSize_clamp (p : LayoutParams) (sz1 sz2 : U16Vec2)
    (h : p.width.should_clamp = true) : (fitMaxSize p sz1).x = (fitMaxSize p sz2).x := by
  cases hw : p.width with
  | Fixed n => simp [fitMaxSize, fitSize1, U16Vec2.saturating_sub, u16vec2, hw]
  | Fit => rw [hw] at h; simp [Size.should_clamp] at h
  | Grow => rw [hw] at h; simp [Size.should_clamp] at h

theorem fitChild_congr (f : Nat) (p : LayoutParams) (ms1 ms2 : U16Vec2)
    (hms : p.width.should_clamp = true → ms1.x = ms2.x)
    (ih : ∀ a b : TuiElement, skeleton a = skeleton b →
      exceptMeasured (calculate_fit_sizes f a) = exceptMeasured (calculate_fit_sizes f b))
    (a b : TuiElement) (hab : skeleton a = skeleton b) :
    exceptMeasured (fitChild f p ms1 a) = exceptMeasured (fitChild f p ms2 b) := by
  have h := ih a b hab
  rw [fitChild, fitChild]
  cases hfa : calculate_fit_sizes f a with
  | error e =>
    rw [hfa] at h
    cases hfb : calculate_fit_sizes f b with
    | error e' =>
      rw [hfb] at h
      simp only [exceptMeasured, Except.error.injEq] at h
      subst h; rfl
    | ok y => rw [hfb] at h; simp [exceptMeasured] at h
  | ok a' =>
    rw [hfa] at h
    cases hfb : calculate_fit_sizes f b with
    | error e => rw [hfb] at h; simp [exceptMeasured] at h
    | ok b' =>
      rw [hfb] at h
      simp only [exceptMeasured, Except.ok.injEq] at h
      have hsz := measured_eq_size h
      simp only [exceptMeasured, Except.ok.injEq]
      by_cases hc : p.width.should_clamp = true
      · rw [hsz, hms hc]
        exact measured_withSize_congr h _
      · simp only [hc]
        rw [hsz]
        exact measured_withSize_congr h _

theorem fitAssemble_congr (p : LayoutParams) (pos1 pos2 sz1 sz2 : U16Vec2) (n : Nat)
    (ch1 ch2 : List TuiElement) (h : ch1.map measured = ch2.map measured) :
    measured (fitAssemble p pos1 sz1 n ch1) = measured (fitAssemble p pos2 sz2 n ch2) := by
  have hfold : ch1.foldl (fun (acc : AxisSizes) c => acc.increase c.size p.direction)
      (⟨0, 0⟩ : AxisSizes)
      = ch2.foldl (fun (acc : AxisSizes) c => acc.increase c.size p.direction)
      (⟨0, 0⟩ : AxisSizes) := by
    rw [← List.foldl_map TuiElement.size
          (fun (acc : AxisSizes) s => acc.increase s p.direction) ch1,
        ← List.foldl_map TuiElement.size
          (fun (acc : AxisSizes) s => acc.increase s p.direction) ch2,
        map_measured_eq_map_size h]
  rw [fitAssemble, fitAssemble]
  rw [hfold, measured_mk, measured_mk, h]
  cases hw : p.width <;> cases hh : p.height <;>
    simp [fitSize1, hw, hh]

/-- Pass 1 is a function of the skeleton alone: skeleton-equal trees give
the same error or measured-equal results. -/
theorem fit_congr (fuel : Nat) (t1 t2 : TuiElement) (h : skeleton t1 = skeleton t2) :
    exceptMeasured (calculate_fit_sizes fuel t1) =
      exceptMeasured (calculate_fit_sizes fuel t2) := by
  induction fuel generalizing t1 t2 with
  | zero => cases t1; cases t2; rfl
  | succ f ih =>
    cases t1 with | mk p1 pos1 sz1 ch1 => ?_
    cases t2 with | mk p2 pos2 sz2 ch2 => ?_
    rw [skeleton_mk, skeleton_mk] at h
    simp only [Skeleton.mk.injEq] at h
    obtain ⟨hp, hch⟩ := h
    subst hp
    rw [calculate_fit_sizes_succ, calculate_fit_sizes_succ]
    have hlen : ch1.length = ch2.length := by
      have := congrArg List.length hch
      simpa using this
    rcases mapME_rel_measured ((forall2_of_map_eq skeleton ch1 ch2 hch).imp
        (fun a b hab =>
          fitChild_congr f p1 (fitMaxSize p1 sz1) (fitMaxSize p1 sz2)
            (fun hc => fitMaxSize_clamp p1 sz1 sz2 hc) ih a b hab)) with
      ⟨e, h1, h2⟩ | ⟨r1, r2, h1, h2, h3⟩
    · rw [h1, h2]
    · rw [h1, h2]
      simp only [exceptMeasured, Except.ok.injEq]
      rw [hlen]
      exact fitAssemble_congr p1 pos1 pos2 sz1 sz2 ch2.length r1 r2 h3

theorem growRemaining_congr (p : LayoutParams) (sz : U16Vec2)
    (ch1 ch2 : List TuiElement) (h : ch1.map measured = ch2.map measured) :
    growRemaining p sz ch1 = growRemaining p sz ch2 := by
  have hfold : ch1.foldl (fun acc c => acc + c.size) U16Vec2.ZERO
      = ch2.foldl (fun acc c => acc + c.size) U16Vec2.ZERO := by
    rw [← List.foldl_map TuiElement.size (fun (acc : U16Vec2) s => acc + s) ch1,
        ← List.foldl_map TuiElement.size (fun (acc : U16Vec2) s => acc + s) ch2,
        map_measured_eq_map_size h]
  rw [growRemaining, growRemaining, hfold, map_measured_length h]

theorem growCrossAdjust_measured (p : LayoutParams) (ms : U16Vec2)
    (ch1 ch2 : List TuiElement) (h : ch1.map measured = ch2.map measured) :
    (growCrossAdjust p ms ch1).map measured = (growCrossAdjust p ms ch2).map measured := by
  rw [growCrossAdjust, growCrossAdjust, List.map_map, List.map_map]
  apply map_congr_forall2
  refine (forall2_of_map_eq measured ch1 ch2 h).imp (fun a b hab => ?_)
  simp only [Function.comp]
  rw [measured_eq_params hab]
  by_cases hg : ((b.layout_params.cross_size p.direction).is_grow) = true
  · simp only [hg, if_true]
    rw [measured_eq_size hab]
    exact measured_withSize_congr hab _
  · simp only [hg, if_false]
    exact hab

theorem zipWith_withSize_measured (l1 l2 : List TuiElement) (v : List ChildView)
    (h : l1.map measured = l2.map measured) :
    (List.zipWith (fun c w => c.withSize w.size) l1 v).map measured
      = (List.zipWith (fun c w => c.withSize w.size) l2 v).map measured := by
  induction l1 generalizing l2 v with
  | nil =>
    cases l2 with
    | nil => rfl
    | cons b bs => simp at h
  | cons a as ih =>
    cases l2 with
    | nil => simp at h
    | cons b bs =>
      cases v with
      | nil => rfl
      | cons w ws =>
        simp only [List.map_cons, List.cons.injEq] at h
        simp only [List.zipWith_cons_cons, List.map_cons]
        rw [measured_withSize_congr h.1, ih bs ws h.2]

/-- Pass 2 is a function of the measured tree alone. -/
theorem grow_congr (fuel : Nat) (t1 t2 : TuiElement) (h : measured t1 = measured t2) :
    exceptMeasured (calculate_grow_sizes fuel t1) =
      exceptMeasured (calculate_grow_sizes fuel t2) := by
  induction fuel generalizing t1 t2 with
  | zero => cases t1; cases t2; rfl
  | succ f ih =>
    cases t1 with | mk p1 pos1 sz1 ch1 => ?_
    cases t2 with | mk p2 pos2 sz2 ch2 => ?_
    rw [measured_mk, measured_mk] at h
    simp only [MTree.mk.injEq] at h
    obtain ⟨hp, hsz, hch⟩ := h
    subst hp; subst hsz
    rw [calculate_grow_sizes_succ, calculate_grow_sizes_succ]
    have hadj := growCrossAdjust_measured p1 (growMaxSize p1 sz1) ch1 ch2 hch
    rw [growRemaining_congr p1 sz1 ch1 ch2 hch, map_measured_eq_map_cv hadj]
    cases hgl : growLoop p1.direction (f+1)
        ((growCrossAdjust p1 (growMaxSize p1 sz1) ch2).map toChildView)
        (growRemaining p1 sz1 ch2) with
    | error e => rfl
    | ok views =>
      simp only []
      have hz := zipWith_withSize_measured _ _ views hadj
      rcases mapME_rel_measured ((forall2_of_map_eq measured _ _ hz).imp
          (fun a b hab => ih a b hab)) with
        ⟨e, h1, h2⟩ | ⟨r1, r2, h1, h2, h3⟩
      · rw [h1, h2]
      · rw [h1, h2]
        simp only [exceptMeasured, Except.ok.injEq]
        rw [measured_mk, measured_mk, h3]

theorem posRemaining_congr (p : LayoutParams) (sz : U16Vec2)
    (ch1 ch2 : List TuiElement) (h : ch1.map measured = ch2.map measured) :
    posRemaining p sz ch1 = posRemaining p sz ch2 := by
  have hmap : ch1.map (fun c => (axify c.size p.direction).main_axis)
      = ch2.map (fun c => (axify c.size p.direction).main_axis) :=
    map_congr_forall2 ((forall2_of_map_eq measured ch1 ch2 h).imp
      (fun a b hab => by rw [measured_eq_size hab]))
  rw [posRemaining, posRemaining, hmap, map_measured_length h]

/-- The child-positioning loop sends measured-equal lists to pointwise
measured-equal, position-equal lists (every child position is freshly
computed from the parent's position and the running alignment state). -/
theorem positionChildren_rel (dir : Direction) (padding : Padding) (gap : Nat)
    (parentPos : U16Vec2) (l1 l2 : List TuiElement) (align : AlignValues)
    (h : l1.map measured = l2.map measured) :
    List.Forall₂ (fun a b => measured a = measured b ∧ a.position = b.position)
      (positionChildren dir padding gap parentPos l1 align)
      (positionChildren dir padding gap parentPos l2 align) := by
  induction l1 generalizing l2 align with
  | nil =>
    cases l2 with
    | nil => exact .nil
    | cons b bs => simp at h
  | cons a as ih =>
    cases l2 with
    | nil => simp at h
    | cons b bs =>
      simp only [List.map_cons, List.cons.injEq] at h
      simp only [positionChildren]
      refine .cons ⟨?_, ?_⟩ ?_
      · rw [measured_withPosition, measured_withPosition]; exact h.1
      · rw [TuiElement.withPosition_position, TuiElement.withPosition_position]
      · rw [TuiElement.withPosition_size, TuiElement.withPosition_size,
          measured_eq_size h.1]
        exact ih bs _ h.2

/-- Pass 3 is a function of the measured tree and the root position alone:
it overwrites every non-root position it touches. -/
theorem pos_congr (fuel : Nat) (t1 t2 : TuiElement) (hm : measured t1 = measured t2)
    (hp : t1.position = t2.position) :
    calculate_positions fuel t1 = calculate_positions fuel t2 := by
  induction fuel generalizing t1 t2 with
  | zero => cases t1; cases t2; rfl
  | succ f ih =>
    cases t1 with | mk p1 pos1 sz1 ch1 => ?_
    cases t2 with | mk p2 pos2 sz2 ch2 => ?_
    rw [measured_mk, measured_mk] at hm
    simp only [MTree.mk.injEq] at hm
    obtain ⟨hpp, hsz, hch⟩ := hm
    have hpos : pos1 = pos2 := hp
    subst hpp; subst hsz; subst hpos
    rw [calculate_positions_succ, calculate_positions_succ]
    rw [posRemaining_congr p1 sz1 ch1 ch2 hch, map_measured_length hch]
    cases alignFor p1.main_justify (posRemaining p1 sz1 ch2) ch2.length with
    | error e => rfl
    | ok align =>
      simp only []
      rw [mapME_congr_eq ((positionChildren_rel p1.direction p1.padding p1.gap pos1
        ch1 ch2 align hch).imp (fun a b hab => ih a b hab.1 hab.2))]

/-- `calculate_layout` is a function of the skeleton and the root
position: pass 1 reads only the skeleton, pass 2 only the measured tree
pass 1 produced, pass 3 only the measured tree and the root position, and
every intermediate position that could differ is overwritten. -/
theorem layout_deterministic (fuel : Nat) (t1 t2 : TuiElement)
    (hs : skeleton t1 = skeleton t2) (hp : t1.position = t2.position) :
    calculate_layout fuel t1 = calculate_layout fuel t2 := by
  unfold calculate_layout
  have h1 := fit_congr fuel t1 t2 hs
  cases hf1 : calculate_fit_sizes fuel t1 with
  | error e =>
    rw [hf1] at h1
    cases hf2 : calculate_fit_sizes fuel t2 with
    | error e' =>
      rw [hf2] at h1
      simp only [exceptMeasured, Except.error.injEq] at h1
      subst h1
      rfl
    | ok a2 => rw [hf2] at h1; simp [exceptMeasured] at h1
  | ok a1 =>
    rw [hf1] at h1
    cases hf2 : calculate_fit_sizes fuel t2 with
    | error e => rw [hf2] at h1; simp [exceptMeasured] at h1
    | ok a2 =>
      rw [hf2] at h1
      simp only [exceptMeasured, Except.ok.injEq] at h1
      rw [chainE_ok, chainE_ok]
      have h2 := grow_congr fuel a1 a2 h1
      cases hg1 : calculate_grow_sizes fuel a1 with
      | error e =>
        rw [hg1] at h2
        cases hg2 : calculate_grow_sizes fuel a2 with
        | error e' =>
          rw [hg2] at h2
          simp only [exceptMeasured, Except.error.injEq] at h2
          subst h2
          rfl
        | ok b2 => rw [hg2] at h2; simp [exceptMeasured] at h2
      | ok b1 =>
        rw [hg1] at h2
        cases hg2 : calculate_grow_sizes fuel a2 with
        | error e => rw [hg2] at h2; simp [exceptMeasured] at h2
        | ok b2 =>
          rw [hg2] at h2
          simp only [exceptMeasured, Except.ok.injEq] at h2
          rw [chainE_ok, chainE_ok]
          have hb1 : b1.position = t1.position := by
            rw [(grow_root_size fuel a1 b1 hg1).2.1, (fit_skeleton fuel t1 a1 hf1).2]
          have hb2 : b2.position = t2.position := by
            rw [(grow_root_size fuel a2 b2 hg2).2.1, (fit_skeleton fuel t2 a2 hf2).2]
          exact pos_congr fuel b1 b2 h2 (by rw [hb1, hb2, hp])

/-- C9, amended.  The ratatui implementation's `calculate_layout` IS
idempotent: a second run on an unmodified successful result returns that
result unchanged (layout only reads the policies, the tree structure and
the root position, all of which a successful run preserves).  The claim
fails for the mana implementation, whose fit pass reads the stale width
left by the previous run (see the counterexample). -/
theorem C9_ratatui_layout_idempotent_amended (fuel : Nat) (t t' : TuiElement)
    (h : calculate_layout fuel t = .ok t') :
    calculate_layout fuel t' = .ok t' := by
  obtain ⟨hs, hp⟩ := layout_skeleton fuel t t' h
  rw [layout_deterministic fuel t' t hs hp, h]

set_option maxHeartbeats 4000000 in
theorem C9_ratatui_layout_idempotent_amended_witness :
    calculate_layout 4 c8res = .ok c8res :=
  C9_ratatui_layout_idempotent_amended 4 c8tree c8res (by rfl)

end RatatuiMana
